import Mathlib

/-! # Recent-file resolution: fork-point discovery and head/base reconciliation

Shallow embedding of `lib/errors.js` and `lib/factory.js`.

* JavaScript exceptions and promise rejections become the `Except.error` side of a result.
* Reading `.sha` of `commit.parents[0]` when `parents` is empty throws a `TypeError` in
  JavaScript; that outcome is kept as its own error constructor.
* `Buffer.from(content, encoding)` throws a `TypeError` on an encoding it does not know, so
  the runtime decoder may fail and `decodeContent` passes that failure on.
* The injected `github` object is a pair of state-passing functions, so a provider may answer
  differently from call to call; every call made is recorded in order.
* `debug(...)` lines only write to a log and are left out.
-/

namespace RecentFile

/-! ## Data model -/

/-- Element of `commit.parents`: an object with a `sha`. -/
structure Parent where
  sha : String
deriving DecidableEq, Repr

/-- Commit record as returned by the list-commits call: `{ sha, parents }`. -/
structure Commit where
  sha : String
  parents : List Parent
deriving DecidableEq, Repr

/-- Errors of `lib/errors.js`, plus the two outcomes that are not one of its classes:
the `TypeError` of the runtime (reading a property of `undefined`, or `Buffer.from` on an
unknown encoding), and a provider rejection that is passed on unchanged. -/
inductive Error where
  | NotFoundError (message : String) (filePath : String)
  | ConflictError (message : String)
  | ManyCommitsError (message : String)
  | TypeError
  | rejected (reason : String)
deriving DecidableEq, Repr

/-! ## Fork-point resolver (`factory.js`, lines 11-50) -/

/-- Transcription of `formatCommits`: a left `reduce` from the empty string that appends
one bracketed group per commit; `commit.parents[0].sha` throws on an empty parent list. -/
def formatCommits (commits : List Commit) : Except Error String :=
  commits.foldlM
    (fun str commit =>
      match commit.parents with
      | [] => Except.error Error.TypeError
      | p :: _ => Except.ok (str ++ " [ commit: " ++ commit.sha ++ " parent: " ++ p.sha ++ " ]"))
    ""

/-- The `for (const commit of commits)` loop of `getForkPointCommitSha`.
`some r` means the loop left the function with `r` (a `return` or a `throw`);
`none` means the loop ran to its end. -/
def forkPointLoop (shaCollection : List String) : List Commit → Option (Except Error String)
  | [] => none
  | commit :: rest =>
    if commit.parents.length > 1 then
      some (Except.error
        (Error.ConflictError ("commit " ++ commit.sha ++ " has more than one parents")))
    else
      match commit.parents with
      | [] => some (Except.error Error.TypeError)
      | p :: _ =>
        if p.sha ∈ shaCollection then forkPointLoop shaCollection rest
        else some (Except.ok p.sha)

/-- Transcription of `getForkPointCommitSha`. The `Set` of hashes is only ever asked
`has`, so it is kept as the list of hashes with membership. -/
def getForkPointCommitSha (commits : List Commit) : Except Error String :=
  let shaCollection := commits.map (fun commit => commit.sha)
  match forkPointLoop shaCollection commits with
  | some r => r
  | none =>
    match formatCommits commits with
    | Except.ok dump =>
      Except.error (Error.ConflictError ("not found fork-point commit sha " ++ dump))
    | Except.error e => Except.error e

/-- Commit list of the test suite's `beforeEach`. -/
def testCommits : List Commit :=
  [ ⟨"a444", [⟨"a333"⟩]⟩,
    ⟨"a222", [⟨"a111"⟩]⟩,
    ⟨"a333", [⟨"a222"⟩]⟩,
    ⟨"a111", [⟨"fork-point-sha"⟩]⟩ ]

/-- Two commits that are each other's parent (test "not found source commit sha"). -/
def closedCommits : List Commit :=
  [ ⟨"a444", [⟨"a222"⟩]⟩, ⟨"a222", [⟨"a444"⟩]⟩ ]

/-- Commit with a single outside parent followed by a merge commit. -/
def mergeAfterFork : List Commit :=
  [ ⟨"a111", [⟨"fork-point-sha"⟩]⟩, ⟨"a555", [⟨"a666"⟩, ⟨"a777"⟩]⟩ ]

/-- Closed single-parent commit followed by a merge commit. -/
def mergeReached : List Commit :=
  [ ⟨"a444", [⟨"a555"⟩]⟩, ⟨"a555", [⟨"a666"⟩, ⟨"a777"⟩]⟩ ]

/-- One bracketed group of the diagnostic dump, for a commit hash and a parent hash. -/
def pairGroup (commit : String) (parent : String) : String :=
  " [ commit: " ++ commit ++ " parent: " ++ parent ++ " ]"

/-- The dump as the specification words it, independently of `formatCommits`: the groups of
all `(commit, parent)` pairs of the input, concatenated in input order. -/
def specDump : List Commit → String
  | [] => ""
  | commit :: rest =>
    (commit.parents.foldr (fun p tail => pairGroup commit.sha p.sha ++ tail) "") ++ specDump rest

/-! ## Reconciliation engine (`factory.js`, lines 27 and 52-151) -/

/-- File object resolved by the content call: `{ sha, content, encoding }`.
The test suite leaves `encoding` out, hence the option. -/
structure File where
  sha : String
  content : String
  encoding : Option String
deriving DecidableEq, Repr

/-- The `owner` object of a repository. -/
structure Owner where
  login : String
deriving DecidableEq, Repr

/-- The `repo` object of a branch. -/
structure Repo where
  name : String
  owner : Owner
deriving DecidableEq, Repr

/-- The `head` and `base` objects of a pull request. -/
structure Branch where
  ref : String
  sha : String
  repo : Repo
deriving DecidableEq, Repr

/-- The fields of the pull-request object that `getRecentFile` reads. -/
structure PullRequest where
  number : Nat
  commits : Nat
  head : Branch
  base : Branch
deriving DecidableEq, Repr

/-- One call on the injected `github` object, with its arguments. -/
inductive Call where
  | getRepoContent (owner : String) (repo : String) (filePath : String) (ref : String)
  | getCommitsFromPr (owner : String) (repo : String) (number : Nat)
deriving DecidableEq, Repr

/-- The injected `github` object. Each method takes the provider's current state and gives
back either the resolved value or the rejection reason, together with the next state. -/
structure Github (σ : Type) where
  getRepoContent : String → String → String → String → σ → Except String File × σ
  getCommitsFromPr : String → String → Nat → σ → Except String (List Commit) × σ

/-- What one invocation of `getRecentFile` leaves behind: the settled promise, the provider
calls in the order they were made, and the provider's final state. -/
structure Run (σ : Type) where
  result : Except Error String
  calls : List Call
  state : σ

/-- Transcription of `decodeContent`. `Buffer.from(content, encoding).toString()` belongs to
the runtime, so it is the parameter `bufferToString`; `none` stands for the `TypeError` that
`Buffer.from` throws on an encoding it does not know, which `decodeContent` does not catch. -/
def decodeContent (bufferToString : String → Option String → Option String) (file : File) :
    Except Error String :=
  match bufferToString file.content file.encoding with
  | some text => Except.ok text
  | none => Except.error Error.TypeError

/-- Transcription of `getRecentFile`. The two calls inside `Promise.all` are issued head
first, then base; `.catch(() => null)` turns a rejection into `none`. A `return
decodeContent(file)` settles as `decodeContent` does: with the text, or with its error. -/
def getRecentFile {σ : Type} (bufferToString : String → Option String → Option String)
    (github : Github σ) (pullRequest : PullRequest) (filePath : String) (s0 : σ) : Run σ :=
  let prNumber := pullRequest.number
  let numberOfCommits := pullRequest.commits
  let headRef := pullRequest.head.sha
  let baseRef := pullRequest.base.ref
  let headOwner := pullRequest.head.repo.owner.login
  let baseOwner := pullRequest.base.repo.owner.login
  let repo := pullRequest.base.repo.name
  let headCall := github.getRepoContent headOwner repo filePath headRef s0
  let baseCall := github.getRepoContent baseOwner repo filePath baseRef headCall.2
  let calls2 := [Call.getRepoContent headOwner repo filePath headRef,
    Call.getRepoContent baseOwner repo filePath baseRef]
  let s2 := baseCall.2
  match headCall.1.toOption, baseCall.1.toOption with
  | none, none =>
    ⟨Except.error
      (Error.NotFoundError "could not fetch file from head and base branches" filePath),
      calls2, s2⟩
  | none, some baseFile => ⟨decodeContent bufferToString baseFile, calls2, s2⟩
  | some headFile, none => ⟨decodeContent bufferToString headFile, calls2, s2⟩
  | some headFile, some baseFile =>
    let isHeadBaseSame : Bool := headFile.sha = baseFile.sha
    if isHeadBaseSame then
      ⟨decodeContent bufferToString baseFile, calls2, s2⟩
    else if numberOfCommits > 250 then
      ⟨Except.error (Error.ManyCommitsError
        ("pull-request has more than 250 commits: " ++ toString numberOfCommits)),
        calls2, s2⟩
    else
      let commitsCall := github.getCommitsFromPr baseOwner repo prNumber s2
      let calls3 := calls2 ++ [Call.getCommitsFromPr baseOwner repo prNumber]
      match commitsCall.1 with
      | Except.error reason => ⟨Except.error (Error.rejected reason), calls3, commitsCall.2⟩
      | Except.ok prCommits =>
        match getForkPointCommitSha prCommits with
        | Except.error e => ⟨Except.error e, calls3, commitsCall.2⟩
        | Except.ok forkPointRef =>
          let forkCall := github.getRepoContent baseOwner repo filePath forkPointRef commitsCall.2
          let calls4 := calls3 ++ [Call.getRepoContent baseOwner repo filePath forkPointRef]
          match forkCall.1 with
          | Except.error _ =>
            ⟨Except.error (Error.NotFoundError
              ("could not fetch file from fork-point commit " ++ forkPointRef) filePath),
              calls4, forkCall.2⟩
          | Except.ok forkPointFile =>
            let isBaseForkPointSame : Bool := baseFile.sha = forkPointFile.sha
            let isHeadForkPointSame : Bool := headFile.sha = forkPointFile.sha
            let isOnlyHeadChanged := !isHeadForkPointSame && isBaseForkPointSame
            let isOnlyBaseChanged := !isBaseForkPointSame && isHeadForkPointSame
            if isOnlyBaseChanged then
              ⟨decodeContent bufferToString baseFile, calls4, forkCall.2⟩
            else if isOnlyHeadChanged then
              ⟨decodeContent bufferToString headFile, calls4, forkCall.2⟩
            else
              ⟨Except.error (Error.ConflictError
                ("file \"" ++ filePath ++ "\" has changes in head and base branches")),
                calls4, forkCall.2⟩

/-! ### The provider's answers along one invocation

Names for what the provider answers to each request of `getRecentFile`, threaded through
the provider's state in the order the requests are made. -/

/-- Answer to the request for the file at the head commit, and the state after it. -/
def headFetch {σ : Type} (github : Github σ) (pullRequest : PullRequest) (filePath : String)
    (s0 : σ) : Except String File × σ :=
  github.getRepoContent pullRequest.head.repo.owner.login pullRequest.base.repo.name
    filePath pullRequest.head.sha s0

/-- Answer to the request for the file at the base branch, made after the head request. -/
def baseFetch {σ : Type} (github : Github σ) (pullRequest : PullRequest) (filePath : String)
    (s0 : σ) : Except String File × σ :=
  github.getRepoContent pullRequest.base.repo.owner.login pullRequest.base.repo.name
    filePath pullRequest.base.ref (headFetch github pullRequest filePath s0).2

/-- Answer to the request for the commit list, made after the head and base requests. -/
def commitsFetch {σ : Type} (github : Github σ) (pullRequest : PullRequest)
    (filePath : String) (s0 : σ) : Except String (List Commit) × σ :=
  github.getCommitsFromPr pullRequest.base.repo.owner.login pullRequest.base.repo.name
    pullRequest.number (baseFetch github pullRequest filePath s0).2

/-- Answer to the request for the file at `forkPointRef`, made after the commit list. -/
def forkPointFetch {σ : Type} (github : Github σ) (pullRequest : PullRequest)
    (filePath : String) (s0 : σ) (forkPointRef : String) : Except String File × σ :=
  github.getRepoContent pullRequest.base.repo.owner.login pullRequest.base.repo.name
    filePath forkPointRef (commitsFetch github pullRequest filePath s0).2

/-- Whether a recorded call is a `getRepoContent` call. -/
def Call.isGetRepoContent : Call → Bool
  | Call.getRepoContent _ _ _ _ => true
  | Call.getCommitsFromPr _ _ _ => false

/-- Whether a recorded call is a `getCommitsFromPr` call. -/
def Call.isGetCommitsFromPr : Call → Bool
  | Call.getRepoContent _ _ _ _ => false
  | Call.getCommitsFromPr _ _ _ => true

/-! ## Test fixtures -/

/-- Provider in the manner of the test suite's stubs: the state counts the content calls
made so far, the `n`-th content call settles as the `n`-th entry of `contents`, and the
commit-list call resolves with `commits`. -/
def stubGithub (contents : List (Except String File)) (commits : List Commit) : Github Nat where
  getRepoContent := fun _ _ _ _ n => ((contents.get? n).getD (Except.error "unset"), n + 1)
  getCommitsFromPr := fun _ _ _ n => (Except.ok commits, n)

/-- Pull request of the test suite, with the values its assertions show: base owner
`octocat`, head owner `octocat-fork`, repository `Hello-World`, number 1347, head commit
`6dcb09b5b57875`, base branch `master`. -/
def testPullRequest : PullRequest where
  number := 1347
  commits := 3
  head := ⟨"new-topic", "6dcb09b5b57875", ⟨"Hello-World", ⟨"octocat-fork"⟩⟩⟩
  base := ⟨"master", "6dcb09b5b57875", ⟨"Hello-World", ⟨"octocat"⟩⟩⟩

/-- Encoding names that `Buffer` knows (`Buffer.isEncoding`), in lower case. -/
def bufferEncodings : List String :=
  ["utf8", "utf-8", "hex", "base64", "base64url", "ascii", "latin1", "binary",
    "ucs2", "ucs-2", "utf16le", "utf-16le"]

/-- Lower case of an encoding name, character by character; the runtime compares encoding
names without regard to case. -/
def lowerCase (name : String) : String := String.mk (name.data.map Char.toLower)

/-- The runtime's `Buffer.from(content, encoding).toString()` for the examples. Without an
encoding, with an empty one, or with utf8, the text comes back as it is; an encoding name
the runtime does not know makes `Buffer.from` throw its `TypeError` (`none`); the byte
conversions of the other known encodings are the parameter `convert`. -/
def nodeBuffer (convert : String → String → String) (content : String)
    (encoding : Option String) : Option String :=
  match encoding with
  | none => some content
  | some name =>
    if name = "" then some content
    else if lowerCase name = "utf8" ∨ lowerCase name = "utf-8" then some content
    else if lowerCase name ∈ bufferEncodings then some (convert (lowerCase name) content)
    else none

/-- Stand-in for the byte conversions of hex, base64 and the like; no example has a file
with one of these encodings, so it is never reached. -/
def noConversion (_encoding : String) (content : String) : String := content

/-- The runtime decoder used with the test suite's files. -/
def plainText : String → Option String → Option String := nodeBuffer noConversion

/-- File object of the tests: `{ sha: n, content: 'n' }`. -/
def testFile (n : String) : File := ⟨n, n, none⟩

/-! ## Lemmas on the search loop -/

/-- A list of exactly one element is a singleton. -/
theorem parents_singleton {c : Commit} (h : c.parents.length = 1) : ∃ p, c.parents = [p] := by
  match hc : c.parents with
  | [] => rw [hc] at h; simp at h
  | [p] => exact ⟨p, rfl⟩
  | _ :: _ :: _ => rw [hc] at h; simp at h

/-- Over a closed list of single-parent commits the loop runs to its end. -/
theorem forkPointLoop_closed (S : List String) (cs : List Commit)
    (h : ∀ c ∈ cs, ∃ p, c.parents = [p] ∧ p.sha ∈ S) : forkPointLoop S cs = none := by
  induction cs with
  | nil => rfl
  | cons c rest ih =>
    obtain ⟨p, hp, hin⟩ := h c (List.mem_cons_self _ _)
    have hrest := ih (fun d hd => h d (List.mem_cons_of_mem _ hd))
    simp [forkPointLoop, hp, hin, hrest]

/-- When every commit has one parent and all outside parents carry the same hash `h`,
which does occur, the loop returns `h`. -/
theorem forkPointLoop_found (S : List String) (cs : List Commit) (h : String)
    (hone : ∀ c ∈ cs, c.parents.length = 1)
    (hex : ∃ c ∈ cs, ∃ p ∈ c.parents, p.sha = h ∧ h ∉ S)
    (hall : ∀ c ∈ cs, ∀ p ∈ c.parents, p.sha ∉ S → p.sha = h) :
    forkPointLoop S cs = some (Except.ok h) := by
  induction cs with
  | nil => obtain ⟨c, hc, _⟩ := hex; simp at hc
  | cons c rest ih =>
    obtain ⟨p, hp⟩ := parents_singleton (hone c (List.mem_cons_self _ _))
    by_cases hin : p.sha ∈ S
    · have hrest : forkPointLoop S rest = some (Except.ok h) := by
        apply ih (fun d hd => hone d (List.mem_cons_of_mem _ hd))
        · obtain ⟨d, hd, q, hq, hqh, hout⟩ := hex
          rcases List.mem_cons.1 hd with rfl | hd
          · rw [hp] at hq
            simp at hq
            subst hq
            rw [hqh] at hin
            exact absurd hin hout
          · exact ⟨d, hd, q, hq, hqh, hout⟩
        · exact fun d hd => hall d (List.mem_cons_of_mem _ hd)
      simp [forkPointLoop, hp, hin, hrest]
    · have hph : p.sha = h := hall c (List.mem_cons_self _ _) p (by simp [hp]) hin
      subst hph
      simp [forkPointLoop, hp, hin]

/-- A hash returned by the loop is the single parent of a commit and fails the set test. -/
theorem forkPointLoop_ok (S : List String) (cs : List Commit) (h : String)
    (hr : forkPointLoop S cs = some (Except.ok h)) :
    ∃ c ∈ cs, ∃ p, c.parents = [p] ∧ p.sha = h ∧ h ∉ S := by
  induction cs with
  | nil => simp [forkPointLoop] at hr
  | cons c rest ih =>
    unfold forkPointLoop at hr
    split at hr
    · simp at hr
    · rename_i hlen
      match hp : c.parents with
      | [] => rw [hp] at hr; simp at hr
      | p :: tl =>
        have htl : tl = [] := by
          rw [hp] at hlen
          cases tl with
          | nil => rfl
          | cons _ _ => simp at hlen
        subst htl
        rw [hp] at hr
        simp only at hr
        split at hr
        · obtain ⟨d, hd, q, hq⟩ := ih hr
          exact ⟨d, List.mem_cons_of_mem _ hd, q, hq⟩
        · rename_i hout
          simp at hr
          subst hr
          exact ⟨c, List.mem_cons_self _ _, p, hp, rfl, hout⟩

/-- Once the loop has run to its end the function can only throw. -/
theorem getForkPointCommitSha_ok_loop (commits : List Commit) (h : String)
    (hr : getForkPointCommitSha commits = Except.ok h) :
    forkPointLoop (commits.map (fun commit => commit.sha)) commits = some (Except.ok h) := by
  unfold getForkPointCommitSha at hr
  simp only at hr
  split at hr
  · rename_i r hloop
    rw [hloop, hr]
  · split at hr <;> simp at hr

/-- Membership form of the fork-point result, stable under reordering. -/
theorem getForkPointCommitSha_found (commits : List Commit) (h : String)
    (hone : ∀ c ∈ commits, c.parents.length = 1)
    (hex : ∃ c ∈ commits, ∃ p ∈ c.parents,
      p.sha = h ∧ h ∉ commits.map (fun commit => commit.sha))
    (hall : ∀ c ∈ commits, ∀ p ∈ c.parents,
      p.sha ∉ commits.map (fun commit => commit.sha) → p.sha = h) :
    getForkPointCommitSha commits = Except.ok h := by
  unfold getForkPointCommitSha
  simp only
  rw [forkPointLoop_found _ commits h hone hex hall]

/-- From "record `i` is the only one whose parent is outside" to the membership form. -/
theorem outside_index_mem (S : List String) (commits : List Commit) (i : Nat)
    (hi : i < commits.length) (p : Parent)
    (hpi : commits[i].parents = [p]) (hout : p.sha ∉ S)
    (huniq : ∀ j (hj : j < commits.length), j ≠ i → ∀ q ∈ commits[j].parents, q.sha ∈ S) :
    (∃ c ∈ commits, ∃ q ∈ c.parents, q.sha = p.sha ∧ p.sha ∉ S) ∧
    (∀ c ∈ commits, ∀ q ∈ c.parents, q.sha ∉ S → q.sha = p.sha) := by
  refine ⟨⟨commits[i], List.getElem_mem hi, p, by simp [hpi], rfl, hout⟩, ?_⟩
  intro c hc q hq hqout
  obtain ⟨j, hj, rfl⟩ := List.getElem_of_mem hc
  by_cases hji : j = i
  · subst hji
    rw [hpi] at hq
    simp at hq
    rw [hq]
  · exact absurd (huniq j hj hji q hq) hqout

/-- The loop throws the merge-commit error when a commit with several parents comes before
any commit whose single parent is outside `S`. -/
theorem forkPointLoop_multi (S : List String) (cs : List Commit) (i : Nat)
    (hi : i < cs.length) (hmulti : 1 < cs[i].parents.length)
    (hne : ∀ j (hj : j < cs.length), j < i → cs[j].parents ≠ [])
    (hin : ∀ j (hj : j < cs.length), j < i → cs[j].parents.length = 1 →
      ∀ p ∈ cs[j].parents, p.sha ∈ S) :
    ∃ c ∈ cs, 1 < c.parents.length ∧ forkPointLoop S cs = some (Except.error
      (Error.ConflictError ("commit " ++ c.sha ++ " has more than one parents"))) := by
  induction cs generalizing i with
  | nil => simp at hi
  | cons c rest ih =>
    by_cases hc : 1 < c.parents.length
    · exact ⟨c, List.mem_cons_self _ _, hc, by simp [forkPointLoop, hc]⟩
    · cases i with
      | zero => exact absurd hmulti hc
      | succ k =>
        have hk : k < rest.length := by simpa using hi
        have hne0 : c.parents ≠ [] := hne 0 (by simp) (Nat.succ_pos k)
        match hp : c.parents with
        | [] => exact absurd hp hne0
        | p :: tl =>
          have htl : tl = [] := by
            rw [hp] at hc
            cases tl with
            | nil => rfl
            | cons _ _ => simp at hc
          subst htl
          have hpS : p.sha ∈ S :=
            hin 0 (by simp) (Nat.succ_pos k) (by simp [hp]) p (by simp [hp])
          obtain ⟨d, hd, hdlen, hloop⟩ := ih k hk (by simpa using hmulti)
            (fun j hj hjk => by
              have := hne (j + 1) (by simpa using hj) (Nat.succ_lt_succ hjk)
              simpa using this)
            (fun j hj hjk hlen q hq => by
              have := hin (j + 1) (by simpa using hj) (Nat.succ_lt_succ hjk)
                (by simpa using hlen) q
              exact this (by simpa using hq))
          refine ⟨d, List.mem_cons_of_mem _ hd, hdlen, ?_⟩
          simp [forkPointLoop, hp, hpS, hloop]

/-- With a parent on every commit, the dump is produced for any starting string. -/
theorem formatCommits_fold_ok (cs : List Commit) (acc : String)
    (hne : ∀ c ∈ cs, c.parents ≠ []) :
    ∃ dump, cs.foldlM
      (fun str commit =>
        match commit.parents with
        | [] => (Except.error Error.TypeError : Except Error String)
        | p :: _ =>
          Except.ok (str ++ " [ commit: " ++ commit.sha ++ " parent: " ++ p.sha ++ " ]"))
      acc = Except.ok dump := by
  induction cs generalizing acc with
  | nil => exact ⟨acc, rfl⟩
  | cons c rest ih =>
    have hrest : ∀ d ∈ rest, d.parents ≠ [] := fun d hd => hne d (List.mem_cons_of_mem _ hd)
    match hp : c.parents with
    | [] => exact absurd hp (hne c (List.mem_cons_self _ _))
    | p :: tl =>
      obtain ⟨dump, hdump⟩ :=
        ih (acc ++ " [ commit: " ++ c.sha ++ " parent: " ++ p.sha ++ " ]") hrest
      refine ⟨dump, ?_⟩
      rw [List.foldlM_cons, hp]
      exact hdump

/-- The dump exists when every commit has a parent. -/
theorem formatCommits_ok (cs : List Commit) (hne : ∀ c ∈ cs, c.parents ≠ []) :
    ∃ dump, formatCommits cs = Except.ok dump :=
  formatCommits_fold_ok cs "" hne

/-- Index form of a successful search: the loop returns `h` exactly when some record has
the single parent `h` outside `S` and all records before it are single-parent and closed. -/
theorem forkPointLoop_ok_iff (S : List String) (cs : List Commit) (h : String) :
    forkPointLoop S cs = some (Except.ok h) ↔
      ∃ i, ∃ hi : i < cs.length, (∃ p, cs[i].parents = [p] ∧ p.sha = h) ∧ h ∉ S ∧
        ∀ j (hj : j < cs.length), j < i → ∃ q, cs[j].parents = [q] ∧ q.sha ∈ S := by
  induction cs with
  | nil => simp [forkPointLoop]
  | cons c rest ih =>
    match hp : c.parents with
    | [] =>
      have hloop : forkPointLoop S (c :: rest) = some (Except.error Error.TypeError) := by
        simp [forkPointLoop, hp]
      rw [hloop]
      constructor
      · intro hbad; simp at hbad
      · rintro ⟨i, hi, ⟨p, hpi, _⟩, _, hbefore⟩
        cases i with
        | zero => simp [hp] at hpi
        | succ k =>
          obtain ⟨q, hq, _⟩ := hbefore 0 (by simp) (Nat.succ_pos k)
          simp [hp] at hq
    | p :: q :: tl =>
      have hloop : forkPointLoop S (c :: rest) = some (Except.error
          (Error.ConflictError ("commit " ++ c.sha ++ " has more than one parents"))) := by
        simp [forkPointLoop, hp]
      rw [hloop]
      constructor
      · intro hbad; simp at hbad
      · rintro ⟨i, hi, ⟨p2, hpi, _⟩, _, hbefore⟩
        cases i with
        | zero => simp [hp] at hpi
        | succ k =>
          obtain ⟨q2, hq, _⟩ := hbefore 0 (by simp) (Nat.succ_pos k)
          simp [hp] at hq
    | [p] =>
      by_cases hin : p.sha ∈ S
      · have hloop : forkPointLoop S (c :: rest) = forkPointLoop S rest := by
          simp [forkPointLoop, hp, hin]
        rw [hloop, ih]
        constructor
        · rintro ⟨i, hi, hpar, hout, hbefore⟩
          refine ⟨i + 1, by simpa using hi, by simpa using hpar, hout, ?_⟩
          intro j hj hji
          cases j with
          | zero => exact ⟨p, by simpa using hp, hin⟩
          | succ k =>
            have := hbefore k (by simpa using hj) (Nat.lt_of_succ_lt_succ hji)
            simpa using this
        · rintro ⟨i, hi, ⟨p2, hpi, hp2⟩, hout, hbefore⟩
          cases i with
          | zero =>
            simp [hp] at hpi
            subst hpi
            rw [hp2] at hin
            exact absurd hin hout
          | succ k =>
            refine ⟨k, by simpa using hi, ⟨p2, by simpa using hpi, hp2⟩, hout, ?_⟩
            intro j hj hjk
            have := hbefore (j + 1) (by simpa using hj) (Nat.succ_lt_succ hjk)
            simpa using this
      · have hloop : forkPointLoop S (c :: rest) = some (Except.ok p.sha) := by
          simp [forkPointLoop, hp, hin]
        rw [hloop]
        constructor
        · intro heq
          have hph : p.sha = h := by simpa using heq
          subst hph
          exact ⟨0, by simp, ⟨p, by simpa using hp, rfl⟩, hin, fun j _ hj0 => by simp at hj0⟩
        · rintro ⟨i, hi, ⟨p2, hpi, hp2⟩, hout, hbefore⟩
          cases i with
          | zero =>
            simp [hp] at hpi
            subst hpi
            rw [hp2]
          | succ k =>
            obtain ⟨q2, hq, hqin⟩ := hbefore 0 (by simp) (Nat.succ_pos k)
            simp [hp] at hq
            subst hq
            exact absurd hqin hin

/-- When the loop runs to its end, every record has exactly one parent. -/
theorem forkPointLoop_none_single (S : List String) (cs : List Commit)
    (hloop : forkPointLoop S cs = none) : ∀ c ∈ cs, c.parents.length = 1 := by
  induction cs with
  | nil => simp
  | cons c rest ih =>
    match hp : c.parents with
    | [] => simp [forkPointLoop, hp] at hloop
    | p :: q :: tl => simp [forkPointLoop, hp] at hloop
    | [p] =>
      by_cases hin : p.sha ∈ S
      · have hrest : forkPointLoop S rest = none := by
          simpa [forkPointLoop, hp, hin] using hloop
        intro d hd
        rcases List.mem_cons.1 hd with rfl | hd
        · simp [hp]
        · exact ih hrest d hd
      · simp [forkPointLoop, hp, hin] at hloop

/-- The loop never reads the first parent of a record that has none, when all have one. -/
theorem forkPointLoop_no_typeError (S : List String) (cs : List Commit)
    (hne : ∀ c ∈ cs, c.parents ≠ []) :
    forkPointLoop S cs ≠ some (Except.error Error.TypeError) := by
  induction cs with
  | nil => simp [forkPointLoop]
  | cons c rest ih =>
    have hrest := ih (fun d hd => hne d (List.mem_cons_of_mem _ hd))
    match hp : c.parents with
    | [] => exact absurd hp (hne c (List.mem_cons_self _ _))
    | p :: q :: tl => simp [forkPointLoop, hp]
    | [p] =>
      by_cases hin : p.sha ∈ S
      · simpa [forkPointLoop, hp, hin] using hrest
      · simp [forkPointLoop, hp, hin]

/-- On single-parent records the left fold of `formatCommits` appends the specified dump. -/
theorem formatCommits_fold_spec (cs : List Commit) (acc : String)
    (hone : ∀ c ∈ cs, c.parents.length = 1) :
    cs.foldlM
      (fun str commit =>
        match commit.parents with
        | [] => (Except.error Error.TypeError : Except Error String)
        | p :: _ =>
          Except.ok (str ++ " [ commit: " ++ commit.sha ++ " parent: " ++ p.sha ++ " ]"))
      acc = Except.ok (acc ++ specDump cs) := by
  induction cs generalizing acc with
  | nil => simp [specDump, pure, Except.pure]
  | cons c rest ih =>
    obtain ⟨p, hp⟩ := parents_singleton (hone c (List.mem_cons_self _ _))
    have hrest := ih (acc ++ " [ commit: " ++ c.sha ++ " parent: " ++ p.sha ++ " ]")
      (fun d hd => hone d (List.mem_cons_of_mem _ hd))
    rw [List.foldlM_cons, hp]
    refine hrest.trans ?_
    simp [specDump, hp, pairGroup, String.append_assoc]

/-- An error thrown inside the loop is the `TypeError` or the merge-commit error. -/
theorem forkPointLoop_error (S : List String) (cs : List Commit) (e : Error)
    (hloop : forkPointLoop S cs = some (Except.error e)) :
    e = Error.TypeError ∨ ∃ c ∈ cs,
      e = Error.ConflictError ("commit " ++ c.sha ++ " has more than one parents") := by
  induction cs with
  | nil => simp [forkPointLoop] at hloop
  | cons c rest ih =>
    match hp : c.parents with
    | [] =>
      left
      simpa [forkPointLoop, hp] using hloop.symm
    | p :: q :: tl =>
      right
      refine ⟨c, List.mem_cons_self _ _, ?_⟩
      simpa [forkPointLoop, hp] using hloop.symm
    | [p] =>
      by_cases hin : p.sha ∈ S
      · have hrest : forkPointLoop S rest = some (Except.error e) := by
          simpa [forkPointLoop, hp, hin] using hloop
        rcases ih hrest with hty | ⟨d, hd, hde⟩
        · exact Or.inl hty
        · exact Or.inr ⟨d, List.mem_cons_of_mem _ hd, hde⟩
      · simp [forkPointLoop, hp, hin] at hloop

/-- The function returns exactly when its loop returns. -/
theorem getForkPointCommitSha_ok_iff_loop (commits : List Commit) (h : String) :
    getForkPointCommitSha commits = Except.ok h ↔
      forkPointLoop (commits.map (fun commit => commit.sha)) commits = some (Except.ok h) := by
  constructor
  · exact getForkPointCommitSha_ok_loop commits h
  · intro hloop
    unfold getForkPointCommitSha
    simp only
    rw [hloop]

/-- The only error `formatCommits` can end in is the `TypeError`. -/
theorem formatCommits_fold_error (cs : List Commit) (acc : String) (e : Error)
    (herr : cs.foldlM
      (fun str commit =>
        match commit.parents with
        | [] => (Except.error Error.TypeError : Except Error String)
        | p :: _ =>
          Except.ok (str ++ " [ commit: " ++ commit.sha ++ " parent: " ++ p.sha ++ " ]"))
      acc = Except.error e) : e = Error.TypeError := by
  induction cs generalizing acc with
  | nil => simp [pure, Except.pure] at herr
  | cons c rest ih =>
    rw [List.foldlM_cons] at herr
    match hp : c.parents with
    | [] =>
      rw [hp] at herr
      simp only [bind, Except.bind] at herr
      cases herr
      rfl
    | p :: tl =>
      rw [hp] at herr
      exact ih _ herr

/-- An error of `getForkPointCommitSha` is the `TypeError` or a `ConflictError`. -/
theorem getForkPointCommitSha_error (commits : List Commit) (e : Error)
    (herr : getForkPointCommitSha commits = Except.error e) :
    e = Error.TypeError ∨ ∃ message, e = Error.ConflictError message := by
  unfold getForkPointCommitSha at herr
  simp only at herr
  split at herr
  · rename_i r hloop
    subst herr
    rcases forkPointLoop_error _ commits e hloop with hty | ⟨c, _, hce⟩
    · exact Or.inl hty
    · exact Or.inr ⟨_, hce⟩
  · split at herr
    · right
      exact ⟨_, (Except.error.inj herr).symm⟩
    · rename_i e2 hfmt
      left
      have he : e2 = e := Except.error.inj herr
      subst he
      exact formatCommits_fold_error commits "" e2 hfmt

/-! ## Fork-point resolver: the claims -/

/-- C1: when every record has exactly one parent hash and record `i` is the only one whose
parent hash is not the hash of a record of the list, `getForkPointCommitSha` returns that
parent hash. -/
theorem getForkPointCommitSha_unique_outside (commits : List Commit) (i : Nat)
    (hi : i < commits.length) (p : Parent)
    (hone : ∀ c ∈ commits, c.parents.length = 1)
    (hpi : commits[i].parents = [p])
    (hout : p.sha ∉ commits.map (fun commit => commit.sha))
    (huniq : ∀ j (hj : j < commits.length), j ≠ i →
      ∀ q ∈ commits[j].parents, q.sha ∈ commits.map (fun commit => commit.sha)) :
    getForkPointCommitSha commits = Except.ok p.sha := by
  obtain ⟨hex, hall⟩ := outside_index_mem _ commits i hi p hpi hout huniq
  exact getForkPointCommitSha_found commits p.sha hone hex hall

/-- Witness for C1: the four-record list of the test suite returns `fork-point-sha`. -/
theorem getForkPointCommitSha_unique_outside_witness :
    getForkPointCommitSha testCommits = Except.ok "fork-point-sha" :=
  getForkPointCommitSha_unique_outside testCommits 3 (by decide) ⟨"fork-point-sha"⟩
    (by decide) rfl (by decide) (by decide)

/-- C2, as stated, fails: in `mergeAfterFork` the second record has two parents, yet the
first record's single parent is outside the list, so the loop returns it and no
`ConflictError` is thrown. -/
theorem getForkPointCommitSha_merge_after_fork :
    (∃ c ∈ mergeAfterFork, 1 < c.parents.length) ∧
    getForkPointCommitSha mergeAfterFork = Except.ok "fork-point-sha" ∧
    ¬ ∃ message,
      getForkPointCommitSha mergeAfterFork = Except.error (Error.ConflictError message) := by
  refine ⟨⟨⟨"a555", [⟨"a666"⟩, ⟨"a777"⟩]⟩, by decide, by decide⟩, rfl, ?_⟩
  rintro ⟨message, hmsg⟩
  have hok : getForkPointCommitSha mergeAfterFork = Except.ok "fork-point-sha" := rfl
  rw [hok] at hmsg
  cases hmsg

/-- C2, amended: if record `i` has more than one parent hash, and every record before it has
at least one parent hash and, when it has exactly one, that hash is the hash of a record of
the list, then `getForkPointCommitSha` fails with the `ConflictError` that names a record
with more than one parent. -/
theorem getForkPointCommitSha_merge_reached (commits : List Commit) (i : Nat)
    (hi : i < commits.length) (hmulti : 1 < commits[i].parents.length)
    (hne : ∀ j (hj : j < commits.length), j < i → commits[j].parents ≠ [])
    (hin : ∀ j (hj : j < commits.length), j < i → commits[j].parents.length = 1 →
      ∀ p ∈ commits[j].parents, p.sha ∈ commits.map (fun commit => commit.sha)) :
    ∃ c ∈ commits, 1 < c.parents.length ∧
      getForkPointCommitSha commits = Except.error
        (Error.ConflictError ("commit " ++ c.sha ++ " has more than one parents")) := by
  obtain ⟨c, hc, hlen, hloop⟩ := forkPointLoop_multi _ commits i hi hmulti hne hin
  refine ⟨c, hc, hlen, ?_⟩
  unfold getForkPointCommitSha
  simp only
  rw [hloop]

/-- Witness for the amended C2: a closed single-parent record followed by a merge commit. -/
theorem getForkPointCommitSha_merge_reached_witness :
    ∃ c ∈ mergeReached, 1 < c.parents.length ∧
      getForkPointCommitSha mergeReached = Except.error
        (Error.ConflictError ("commit " ++ c.sha ++ " has more than one parents")) :=
  getForkPointCommitSha_merge_reached mergeReached 1 (by decide) (by decide)
    (by decide) (by decide)

/-- C3: when every record has exactly one parent hash and every parent hash is the hash of
a record of the list, `getForkPointCommitSha` fails with the `ConflictError` whose message
is `not found fork-point commit sha ` followed by the dump of `formatCommits`. -/
theorem getForkPointCommitSha_closed_not_found (commits : List Commit)
    (hone : ∀ c ∈ commits, c.parents.length = 1)
    (hclosed : ∀ c ∈ commits, ∀ p ∈ c.parents,
      p.sha ∈ commits.map (fun commit => commit.sha)) :
    ∃ dump, formatCommits commits = Except.ok dump ∧
      getForkPointCommitSha commits =
        Except.error (Error.ConflictError ("not found fork-point commit sha " ++ dump)) := by
  have hloop : forkPointLoop (commits.map (fun commit => commit.sha)) commits = none := by
    apply forkPointLoop_closed
    intro c hc
    obtain ⟨p, hp⟩ := parents_singleton (hone c hc)
    exact ⟨p, hp, hclosed c hc p (by simp [hp])⟩
  obtain ⟨dump, hdump⟩ := formatCommits_ok commits (fun c hc hnil => by
    have := hone c hc
    rw [hnil] at this
    simp at this)
  refine ⟨dump, hdump, ?_⟩
  unfold getForkPointCommitSha
  simp only
  rw [hloop]
  simp only
  rw [hdump]

/-- Witness for C3: two records that are each other's parent. -/
theorem getForkPointCommitSha_closed_not_found_witness :
    ∃ dump, formatCommits closedCommits = Except.ok dump ∧
      getForkPointCommitSha closedCommits =
        Except.error (Error.ConflictError ("not found fork-point commit sha " ++ dump)) :=
  getForkPointCommitSha_closed_not_found closedCommits (by decide) (by decide)

/-- C4: a hash returned by `getForkPointCommitSha` is a parent hash of some record of the
list and is not the hash of any record of the list. -/
theorem getForkPointCommitSha_result_outside (commits : List Commit) (h : String)
    (hr : getForkPointCommitSha commits = Except.ok h) :
    (∃ c ∈ commits, ∃ p ∈ c.parents, p.sha = h) ∧ ∀ c ∈ commits, c.sha ≠ h := by
  obtain ⟨c, hc, p, hp, hph, hout⟩ :=
    forkPointLoop_ok _ commits h (getForkPointCommitSha_ok_loop commits h hr)
  refine ⟨⟨c, hc, p, by simp [hp], hph⟩, ?_⟩
  intro d hd hdh
  exact hout (List.mem_map.2 ⟨d, hd, hdh⟩)

/-- Witness for C4 on the test suite's list. -/
theorem getForkPointCommitSha_result_outside_witness :
    (∃ c ∈ testCommits, ∃ p ∈ c.parents, p.sha = "fork-point-sha") ∧
      ∀ c ∈ testCommits, c.sha ≠ "fork-point-sha" :=
  getForkPointCommitSha_result_outside testCommits "fork-point-sha" rfl

/-- C5: when every record has exactly one parent hash and record `i` is the only one whose
parent hash is outside the list, `getForkPointCommitSha` returns the same hash on every
permutation of the list as on the list itself. -/
theorem getForkPointCommitSha_perm (commits permuted : List Commit)
    (hperm : commits.Perm permuted) (i : Nat) (hi : i < commits.length) (p : Parent)
    (hone : ∀ c ∈ commits, c.parents.length = 1)
    (hpi : commits[i].parents = [p])
    (hout : p.sha ∉ commits.map (fun commit => commit.sha))
    (huniq : ∀ j (hj : j < commits.length), j ≠ i →
      ∀ q ∈ commits[j].parents, q.sha ∈ commits.map (fun commit => commit.sha)) :
    ∃ h, getForkPointCommitSha commits = Except.ok h ∧
      getForkPointCommitSha permuted = Except.ok h := by
  obtain ⟨hex, hall⟩ := outside_index_mem _ commits i hi p hpi hout huniq
  have hset : ∀ x : String, x ∈ permuted.map (fun commit => commit.sha) ↔
      x ∈ commits.map (fun commit => commit.sha) :=
    fun x => (hperm.map (fun commit => commit.sha)).symm.mem_iff
  refine ⟨p.sha, getForkPointCommitSha_found commits p.sha hone hex hall, ?_⟩
  apply getForkPointCommitSha_found permuted p.sha
  · exact fun c hc => hone c (hperm.mem_iff.2 hc)
  · obtain ⟨c, hc, q, hq, hqp, hqout⟩ := hex
    exact ⟨c, hperm.mem_iff.1 hc, q, hq, hqp, fun hmem => hqout ((hset _).1 hmem)⟩
  · intro c hc q hq hqout
    exact hall c (hperm.mem_iff.2 hc) q hq (fun hmem => hqout ((hset _).2 hmem))

/-- Witness for C5: the test suite's list and its reversal. -/
theorem getForkPointCommitSha_perm_witness :
    ∃ h, getForkPointCommitSha testCommits = Except.ok h ∧
      getForkPointCommitSha testCommits.reverse = Except.ok h :=
  getForkPointCommitSha_perm testCommits testCommits.reverse
    (List.reverse_perm testCommits).symm 3 (by decide) ⟨"fork-point-sha"⟩
    (by decide) rfl (by decide) (by decide)

/-! ## Reconciliation engine: the claims -/

/-- C6: when the provider rejects both the head request and the base request,
`getRecentFile` fails with the `NotFoundError` that carries the requested file path. -/
theorem getRecentFile_both_absent {σ : Type}
    (bufferToString : String → Option String → Option String) (github : Github σ)
    (pullRequest : PullRequest) (filePath : String) (s0 : σ) (e1 e2 : String)
    (hhead : (headFetch github pullRequest filePath s0).1 = Except.error e1)
    (hbase : (baseFetch github pullRequest filePath s0).1 = Except.error e2) :
    (getRecentFile bufferToString github pullRequest filePath s0).result =
      Except.error
        (Error.NotFoundError "could not fetch file from head and base branches" filePath) := by
  simp only [headFetch, baseFetch] at hhead hbase
  simp [getRecentFile, hhead, hbase, Except.toOption]

/-- Witness for C6: both content calls reject with `404`, path `test`. -/
theorem getRecentFile_both_absent_witness :
    (getRecentFile plainText
      (stubGithub [Except.error "404", Except.error "404"] testCommits)
      testPullRequest "test" 0).result =
      Except.error
        (Error.NotFoundError "could not fetch file from head and base branches" "test") :=
  getRecentFile_both_absent plainText
    (stubGithub [Except.error "404", Except.error "404"] testCommits)
    testPullRequest "test" 0 "404" "404" rfl rfl

/-- What `decodeContent` gives when the runtime decodes the file. -/
theorem decodeContent_some (bufferToString : String → Option String → Option String)
    (file : File) (text : String)
    (hdecode : bufferToString file.content file.encoding = some text) :
    decodeContent bufferToString file = Except.ok text := by
  simp [decodeContent, hdecode]

/-- A successful `decodeContent` is a successful runtime decoding. -/
theorem decodeContent_ok (bufferToString : String → Option String → Option String)
    (file : File) (text : String)
    (hok : decodeContent bufferToString file = Except.ok text) :
    bufferToString file.content file.encoding = some text := by
  unfold decodeContent at hok
  split at hok
  · rename_i t ht
    cases hok
    exact ht
  · cases hok

/-- The only error of `decodeContent` is the runtime's `TypeError`. -/
theorem decodeContent_error (bufferToString : String → Option String → Option String)
    (file : File) (e : Error)
    (herr : decodeContent bufferToString file = Except.error e) : e = Error.TypeError := by
  unfold decodeContent at herr
  split at herr
  · cases herr
  · cases herr
    rfl

/-- C7, as stated, fails: the head request is rejected and the base request resolves with a
file whose encoding the runtime does not know; `Buffer.from` throws, so `getRecentFile`
fails with that `TypeError` instead of returning a content. -/
theorem getRecentFile_one_absent_unknown_encoding :
    (∃ e, (headFetch
      (stubGithub [Except.error "404", Except.ok ⟨"123", "abc", some "bogus"⟩] testCommits)
      testPullRequest "test" 0).1 = Except.error e) ∧
    (baseFetch
      (stubGithub [Except.error "404", Except.ok ⟨"123", "abc", some "bogus"⟩] testCommits)
      testPullRequest "test" 0).1 = Except.ok ⟨"123", "abc", some "bogus"⟩ ∧
    (getRecentFile plainText
      (stubGithub [Except.error "404", Except.ok ⟨"123", "abc", some "bogus"⟩] testCommits)
      testPullRequest "test" 0).result = Except.error Error.TypeError ∧
    ¬ ∃ content, (getRecentFile plainText
      (stubGithub [Except.error "404", Except.ok ⟨"123", "abc", some "bogus"⟩] testCommits)
      testPullRequest "test" 0).result = Except.ok content := by
  refine ⟨⟨"404", rfl⟩, rfl, rfl, ?_⟩
  rintro ⟨content, hcontent⟩
  have hres : (getRecentFile plainText
      (stubGithub [Except.error "404", Except.ok ⟨"123", "abc", some "bogus"⟩] testCommits)
      testPullRequest "test" 0).result = Except.error Error.TypeError := rfl
  rw [hres] at hcontent
  cases hcontent

/-- C7, amended: when exactly one of the head and base requests is rejected, the other
resolves with `file`, and the runtime decodes the content of `file` under its encoding to
`text`, `getRecentFile` succeeds with `text`; the commit count plays no part and the
rejection is not passed on. -/
theorem getRecentFile_one_absent {σ : Type}
    (bufferToString : String → Option String → Option String) (github : Github σ)
    (pullRequest : PullRequest) (filePath : String) (s0 : σ) (file : File) (text : String)
    (hone :
      ((∃ e, (headFetch github pullRequest filePath s0).1 = Except.error e) ∧
        (baseFetch github pullRequest filePath s0).1 = Except.ok file) ∨
      ((headFetch github pullRequest filePath s0).1 = Except.ok file ∧
        ∃ e, (baseFetch github pullRequest filePath s0).1 = Except.error e))
    (hdecode : bufferToString file.content file.encoding = some text) :
    (getRecentFile bufferToString github pullRequest filePath s0).result =
      Except.ok text := by
  have hdec := decodeContent_some bufferToString file text hdecode
  simp only [headFetch, baseFetch] at hone
  rcases hone with ⟨⟨e, hhead⟩, hbase⟩ | ⟨hhead, ⟨e, hbase⟩⟩ <;>
    simp [getRecentFile, hhead, hbase, Except.toOption, hdec]

/-- Witness for the amended C7: head rejected and base resolved, then head resolved and
base rejected, with a commit count of 3 and of 1000. -/
theorem getRecentFile_one_absent_witness :
    (getRecentFile plainText
      (stubGithub [Except.error "404", Except.ok (testFile "123")] testCommits)
      testPullRequest "test" 0).result = Except.ok "123" ∧
    (getRecentFile plainText
      (stubGithub [Except.ok (testFile "123"), Except.error "404"] testCommits)
      { testPullRequest with commits := 1000 } "test" 0).result = Except.ok "123" :=
  ⟨getRecentFile_one_absent plainText
      (stubGithub [Except.error "404", Except.ok (testFile "123")] testCommits)
      testPullRequest "test" 0 (testFile "123") "123" (Or.inl ⟨⟨"404", rfl⟩, rfl⟩) rfl,
    getRecentFile_one_absent plainText
      (stubGithub [Except.ok (testFile "123"), Except.error "404"] testCommits)
      { testPullRequest with commits := 1000 } "test" 0 (testFile "123") "123"
      (Or.inr ⟨rfl, ⟨"404", rfl⟩⟩) rfl⟩

/-- C8, as stated, fails: head and base resolve with equal hashes and the base file has an
encoding the runtime does not know; `getRecentFile` fails with the `TypeError` of
`Buffer.from` instead of returning the base content. -/
theorem getRecentFile_same_hash_unknown_encoding :
    (headFetch
      (stubGithub [Except.ok (testFile "123"), Except.ok ⟨"123", "abc", some "bogus"⟩]
        testCommits)
      testPullRequest "test" 0).1 = Except.ok (testFile "123") ∧
    (baseFetch
      (stubGithub [Except.ok (testFile "123"), Except.ok ⟨"123", "abc", some "bogus"⟩]
        testCommits)
      testPullRequest "test" 0).1 = Except.ok ⟨"123", "abc", some "bogus"⟩ ∧
    (getRecentFile plainText
      (stubGithub [Except.ok (testFile "123"), Except.ok ⟨"123", "abc", some "bogus"⟩]
        testCommits)
      testPullRequest "test" 0).result = Except.error Error.TypeError ∧
    ¬ ∃ content, (getRecentFile plainText
      (stubGithub [Except.ok (testFile "123"), Except.ok ⟨"123", "abc", some "bogus"⟩]
        testCommits)
      testPullRequest "test" 0).result = Except.ok content := by
  refine ⟨rfl, rfl, rfl, ?_⟩
  rintro ⟨content, hcontent⟩
  have hres : (getRecentFile plainText
      (stubGithub [Except.ok (testFile "123"), Except.ok ⟨"123", "abc", some "bogus"⟩]
        testCommits)
      testPullRequest "test" 0).result = Except.error Error.TypeError := rfl
  rw [hres] at hcontent
  cases hcontent

/-- C8, amended: when both requests resolve, the head file's hash equals the base file's
hash, and the runtime decodes the base file's content under its encoding to `text`,
`getRecentFile` returns `text` (the base content, whatever the head content is). -/
theorem getRecentFile_same_hash {σ : Type}
    (bufferToString : String → Option String → Option String) (github : Github σ)
    (pullRequest : PullRequest) (filePath : String) (s0 : σ) (headFile baseFile : File)
    (text : String)
    (hhead : (headFetch github pullRequest filePath s0).1 = Except.ok headFile)
    (hbase : (baseFetch github pullRequest filePath s0).1 = Except.ok baseFile)
    (hsame : headFile.sha = baseFile.sha)
    (hdecode : bufferToString baseFile.content baseFile.encoding = some text) :
    (getRecentFile bufferToString github pullRequest filePath s0).result =
      Except.ok text := by
  have hdec := decodeContent_some bufferToString baseFile text hdecode
  simp only [headFetch, baseFetch] at hhead hbase
  simp [getRecentFile, hhead, hbase, Except.toOption, hsame, hdec]

/-- Witness for the amended C8: equal hashes with different contents; the base content
comes back. -/
theorem getRecentFile_same_hash_witness :
    (getRecentFile plainText
      (stubGithub [Except.ok ⟨"123", "head text", none⟩, Except.ok ⟨"123", "base text", none⟩]
        testCommits)
      testPullRequest "test" 0).result = Except.ok "base text" :=
  getRecentFile_same_hash plainText
    (stubGithub [Except.ok ⟨"123", "head text", none⟩, Except.ok ⟨"123", "base text", none⟩]
      testCommits)
    testPullRequest "test" 0 ⟨"123", "head text", none⟩ ⟨"123", "base text", none⟩
    "base text" rfl rfl rfl rfl

/-- Everything `getRecentFile` does once head and base differ, the commit count is within
the limit, the fork point is resolved and its file is fetched: the decision on the hashes. -/
theorem getRecentFile_decision {σ : Type}
    (bufferToString : String → Option String → Option String) (github : Github σ)
    (pullRequest : PullRequest) (filePath : String) (s0 : σ)
    (headFile baseFile forkPointFile : File) (prCommits : List Commit) (forkPointRef : String)
    (hhead : (headFetch github pullRequest filePath s0).1 = Except.ok headFile)
    (hbase : (baseFetch github pullRequest filePath s0).1 = Except.ok baseFile)
    (hdiff : headFile.sha ≠ baseFile.sha)
    (hcount : pullRequest.commits ≤ 250)
    (hcommits : (commitsFetch github pullRequest filePath s0).1 = Except.ok prCommits)
    (hfork : getForkPointCommitSha prCommits = Except.ok forkPointRef)
    (hfile : (forkPointFetch github pullRequest filePath s0 forkPointRef).1 =
      Except.ok forkPointFile) :
    (getRecentFile bufferToString github pullRequest filePath s0).result =
      if baseFile.sha ≠ forkPointFile.sha ∧ headFile.sha = forkPointFile.sha then
        decodeContent bufferToString baseFile
      else if headFile.sha ≠ forkPointFile.sha ∧ baseFile.sha = forkPointFile.sha then
        decodeContent bufferToString headFile
      else
        Except.error (Error.ConflictError
          ("file \"" ++ filePath ++ "\" has changes in head and base branches")) := by
  simp only [headFetch, baseFetch, commitsFetch, forkPointFetch] at hhead hbase hcommits hfile
  have hcount2 : ¬ pullRequest.commits > 250 := Nat.not_lt.2 hcount
  simp only [getRecentFile, hhead, hbase, Except.toOption, hcommits, hfork, hfile]
  simp only [hdiff, hcount2, decide_False, decide_not, Bool.false_eq_true, if_false,
    Bool.and_eq_true, Bool.not_eq_true', decide_eq_false_iff_not, decide_eq_true_eq]
  split_ifs <;> rfl

/-- C9, as stated, fails: hashes (head, base, fork point) = (123, 456, 123), so only the
base changed, but the base file has an encoding the runtime does not know; `getRecentFile`
fails with the `TypeError` of `Buffer.from` instead of returning the base content. -/
theorem getRecentFile_one_side_changed_unknown_encoding :
    (baseFetch
      (stubGithub
        [Except.ok (testFile "123"), Except.ok ⟨"456", "abc", some "bogus"⟩,
          Except.ok (testFile "123")]
        testCommits)
      testPullRequest "test" 0).1 = Except.ok ⟨"456", "abc", some "bogus"⟩ ∧
    (forkPointFetch
      (stubGithub
        [Except.ok (testFile "123"), Except.ok ⟨"456", "abc", some "bogus"⟩,
          Except.ok (testFile "123")]
        testCommits)
      testPullRequest "test" 0 "fork-point-sha").1 = Except.ok (testFile "123") ∧
    (getRecentFile plainText
      (stubGithub
        [Except.ok (testFile "123"), Except.ok ⟨"456", "abc", some "bogus"⟩,
          Except.ok (testFile "123")]
        testCommits)
      testPullRequest "test" 0).result = Except.error Error.TypeError ∧
    ¬ ∃ content, (getRecentFile plainText
      (stubGithub
        [Except.ok (testFile "123"), Except.ok ⟨"456", "abc", some "bogus"⟩,
          Except.ok (testFile "123")]
        testCommits)
      testPullRequest "test" 0).result = Except.ok content := by
  refine ⟨rfl, rfl, rfl, ?_⟩
  rintro ⟨content, hcontent⟩
  have hres : (getRecentFile plainText
      (stubGithub
        [Except.ok (testFile "123"), Except.ok ⟨"456", "abc", some "bogus"⟩,
          Except.ok (testFile "123")]
        testCommits)
      testPullRequest "test" 0).result = Except.error Error.TypeError := rfl
  rw [hres] at hcontent
  cases hcontent

/-- C9, amended: with head and base present under different hashes, a commit count of at
most 250, a resolved fork point and its file fetched: if the head hash equals the fork-point
hash, the base hash does not, and the runtime decodes the base content to `text`,
`getRecentFile` returns `text`; if the base hash equals the fork-point hash, the head hash
does not, and the runtime decodes the head content to `text`, it returns `text`. -/
theorem getRecentFile_one_side_changed {σ : Type}
    (bufferToString : String → Option String → Option String) (github : Github σ)
    (pullRequest : PullRequest) (filePath : String) (s0 : σ)
    (headFile baseFile forkPointFile : File) (prCommits : List Commit) (forkPointRef : String)
    (hhead : (headFetch github pullRequest filePath s0).1 = Except.ok headFile)
    (hbase : (baseFetch github pullRequest filePath s0).1 = Except.ok baseFile)
    (hdiff : headFile.sha ≠ baseFile.sha)
    (hcount : pullRequest.commits ≤ 250)
    (hcommits : (commitsFetch github pullRequest filePath s0).1 = Except.ok prCommits)
    (hfork : getForkPointCommitSha prCommits = Except.ok forkPointRef)
    (hfile : (forkPointFetch github pullRequest filePath s0 forkPointRef).1 =
      Except.ok forkPointFile) :
    (headFile.sha = forkPointFile.sha → baseFile.sha ≠ forkPointFile.sha →
      ∀ text, bufferToString baseFile.content baseFile.encoding = some text →
        (getRecentFile bufferToString github pullRequest filePath s0).result =
          Except.ok text) ∧
    (baseFile.sha = forkPointFile.sha → headFile.sha ≠ forkPointFile.sha →
      ∀ text, bufferToString headFile.content headFile.encoding = some text →
        (getRecentFile bufferToString github pullRequest filePath s0).result =
          Except.ok text) := by
  have hdec := getRecentFile_decision bufferToString github pullRequest filePath s0
    headFile baseFile forkPointFile prCommits forkPointRef
    hhead hbase hdiff hcount hcommits hfork hfile
  constructor
  · intro hH hB text hdecode
    rw [hdec, if_pos ⟨hB, hH⟩, decodeContent_some bufferToString baseFile text hdecode]
  · intro hB hH text hdecode
    rw [hdec, if_neg (fun h => hH h.2), if_pos ⟨hH, hB⟩,
      decodeContent_some bufferToString headFile text hdecode]

/-- Witness for the amended C9: hashes (head, base, fork point) = (123, 456, 123) give the
base content `456`, and (456, 123, 123) give the head content `456`. -/
theorem getRecentFile_one_side_changed_witness :
    (getRecentFile plainText
      (stubGithub
        [Except.ok (testFile "123"), Except.ok (testFile "456"), Except.ok (testFile "123")]
        testCommits)
      testPullRequest "test" 0).result = Except.ok "456" ∧
    (getRecentFile plainText
      (stubGithub
        [Except.ok (testFile "456"), Except.ok (testFile "123"), Except.ok (testFile "123")]
        testCommits)
      testPullRequest "test" 0).result = Except.ok "456" :=
  ⟨(getRecentFile_one_side_changed plainText
      (stubGithub
        [Except.ok (testFile "123"), Except.ok (testFile "456"), Except.ok (testFile "123")]
        testCommits)
      testPullRequest "test" 0 (testFile "123") (testFile "456") (testFile "123")
      testCommits "fork-point-sha" rfl rfl (by decide) (by decide) rfl rfl rfl).1
      rfl (by decide) "456" rfl,
    (getRecentFile_one_side_changed plainText
      (stubGithub
        [Except.ok (testFile "456"), Except.ok (testFile "123"), Except.ok (testFile "123")]
        testCommits)
      testPullRequest "test" 0 (testFile "456") (testFile "123") (testFile "123")
      testCommits "fork-point-sha" rfl rfl (by decide) (by decide) rfl rfl rfl).2
      rfl (by decide) "456" rfl⟩

/-- C10: with head, base and fork-point files all fetched (commit count at most 250, fork
point resolved) and the three hashes pairwise different, `getRecentFile` fails with the
`ConflictError` whose message quotes the file path. -/
theorem getRecentFile_all_differ {σ : Type}
    (bufferToString : String → Option String → Option String) (github : Github σ)
    (pullRequest : PullRequest) (filePath : String) (s0 : σ)
    (headFile baseFile forkPointFile : File) (prCommits : List Commit) (forkPointRef : String)
    (hhead : (headFetch github pullRequest filePath s0).1 = Except.ok headFile)
    (hbase : (baseFetch github pullRequest filePath s0).1 = Except.ok baseFile)
    (hdiff : headFile.sha ≠ baseFile.sha)
    (hcount : pullRequest.commits ≤ 250)
    (hcommits : (commitsFetch github pullRequest filePath s0).1 = Except.ok prCommits)
    (hfork : getForkPointCommitSha prCommits = Except.ok forkPointRef)
    (hfile : (forkPointFetch github pullRequest filePath s0 forkPointRef).1 =
      Except.ok forkPointFile)
    (hheadFork : headFile.sha ≠ forkPointFile.sha)
    (hbaseFork : baseFile.sha ≠ forkPointFile.sha) :
    (getRecentFile bufferToString github pullRequest filePath s0).result =
      Except.error (Error.ConflictError
        ("file \"" ++ filePath ++ "\" has changes in head and base branches")) := by
  rw [getRecentFile_decision bufferToString github pullRequest filePath s0
    headFile baseFile forkPointFile prCommits forkPointRef
    hhead hbase hdiff hcount hcommits hfork hfile,
    if_neg (fun h => hheadFork h.2), if_neg (fun h => hbaseFork h.2)]

/-- Witness for C10: hashes (123, 456, 789) with path `test`. -/
theorem getRecentFile_all_differ_witness :
    (getRecentFile plainText
      (stubGithub
        [Except.ok (testFile "123"), Except.ok (testFile "456"), Except.ok (testFile "789")]
        testCommits)
      testPullRequest "test" 0).result =
      Except.error
        (Error.ConflictError "file \"test\" has changes in head and base branches") :=
  getRecentFile_all_differ plainText
    (stubGithub
      [Except.ok (testFile "123"), Except.ok (testFile "456"), Except.ok (testFile "789")]
      testCommits)
    testPullRequest "test" 0 (testFile "123") (testFile "456") (testFile "789")
    testCommits "fork-point-sha" rfl rfl (by decide) (by decide) rfl rfl rfl
    (by decide) (by decide)

/-! ## Lemmas on the provider calls -/

/-- Either the invocation settles after the two first requests, or it runs the deeper
check. -/
theorem early_or_deep {σ : Type} (github : Github σ) (pullRequest : PullRequest)
    (filePath : String) (s0 : σ) :
    ((∃ e, (headFetch github pullRequest filePath s0).1 = Except.error e) ∨
      (∃ e, (baseFetch github pullRequest filePath s0).1 = Except.error e) ∨
      ∃ headFile baseFile,
        (headFetch github pullRequest filePath s0).1 = Except.ok headFile ∧
        (baseFetch github pullRequest filePath s0).1 = Except.ok baseFile ∧
        (headFile.sha = baseFile.sha ∨
          (headFile.sha ≠ baseFile.sha ∧ 250 < pullRequest.commits))) ∨
    ∃ headFile baseFile,
      (headFetch github pullRequest filePath s0).1 = Except.ok headFile ∧
      (baseFetch github pullRequest filePath s0).1 = Except.ok baseFile ∧
      headFile.sha ≠ baseFile.sha ∧ pullRequest.commits ≤ 250 := by
  rcases hh : (headFetch github pullRequest filePath s0).1 with e1 | hf
  · exact Or.inl (Or.inl ⟨e1, rfl⟩)
  · rcases hb : (baseFetch github pullRequest filePath s0).1 with e2 | bf
    · exact Or.inl (Or.inr (Or.inl ⟨e2, rfl⟩))
    · by_cases hsame : hf.sha = bf.sha
      · exact Or.inl (Or.inr (Or.inr ⟨hf, bf, rfl, rfl, Or.inl hsame⟩))
      · by_cases hcount : 250 < pullRequest.commits
        · exact Or.inl (Or.inr (Or.inr ⟨hf, bf, rfl, rfl, Or.inr ⟨hsame, hcount⟩⟩))
        · exact Or.inr ⟨hf, bf, rfl, rfl, hsame, Nat.not_lt.1 hcount⟩

/-- An invocation that settles early has made the head and the base request only. -/
theorem getRecentFile_calls_early {σ : Type}
    (bufferToString : String → Option String → Option String) (github : Github σ)
    (pullRequest : PullRequest) (filePath : String) (s0 : σ)
    (hearly : (∃ e, (headFetch github pullRequest filePath s0).1 = Except.error e) ∨
      (∃ e, (baseFetch github pullRequest filePath s0).1 = Except.error e) ∨
      ∃ headFile baseFile,
        (headFetch github pullRequest filePath s0).1 = Except.ok headFile ∧
        (baseFetch github pullRequest filePath s0).1 = Except.ok baseFile ∧
        (headFile.sha = baseFile.sha ∨
          (headFile.sha ≠ baseFile.sha ∧ 250 < pullRequest.commits))) :
    (getRecentFile bufferToString github pullRequest filePath s0).calls =
      [Call.getRepoContent pullRequest.head.repo.owner.login pullRequest.base.repo.name
          filePath pullRequest.head.sha,
        Call.getRepoContent pullRequest.base.repo.owner.login pullRequest.base.repo.name
          filePath pullRequest.base.ref] := by
  rcases hh : (headFetch github pullRequest filePath s0).1 with e1 | hf <;>
  rcases hb : (baseFetch github pullRequest filePath s0).1 with e2 | bf <;>
  rw [hh, hb] at hearly <;>
  simp only [headFetch, baseFetch] at hh hb
  · simp [getRecentFile, hh, hb, Except.toOption]
  · simp [getRecentFile, hh, hb, Except.toOption]
  · simp [getRecentFile, hh, hb, Except.toOption]
  · rcases hearly with ⟨e, he⟩ | ⟨e, he⟩ | ⟨headFile, baseFile, h1, h2, hcase⟩
    · cases he
    · cases he
    · cases h1
      cases h2
      rcases hcase with hsame | ⟨hdiff, hcount⟩
      · simp [getRecentFile, hh, hb, Except.toOption, hsame]
      · simp [getRecentFile, hh, hb, Except.toOption, hdiff, hcount]

/-- An invocation that runs the deeper check requests the commit list and then, when the
fork point is resolved, the file at the fork point. -/
theorem getRecentFile_calls_deep {σ : Type}
    (bufferToString : String → Option String → Option String) (github : Github σ)
    (pullRequest : PullRequest) (filePath : String) (s0 : σ) (headFile baseFile : File)
    (hhead : (headFetch github pullRequest filePath s0).1 = Except.ok headFile)
    (hbase : (baseFetch github pullRequest filePath s0).1 = Except.ok baseFile)
    (hdiff : headFile.sha ≠ baseFile.sha)
    (hcount : pullRequest.commits ≤ 250) :
    ((∀ prCommits forkPointRef,
        (commitsFetch github pullRequest filePath s0).1 = Except.ok prCommits →
        getForkPointCommitSha prCommits ≠ Except.ok forkPointRef) ∧
      (getRecentFile bufferToString github pullRequest filePath s0).calls =
        [Call.getRepoContent pullRequest.head.repo.owner.login pullRequest.base.repo.name
            filePath pullRequest.head.sha,
          Call.getRepoContent pullRequest.base.repo.owner.login pullRequest.base.repo.name
            filePath pullRequest.base.ref,
          Call.getCommitsFromPr pullRequest.base.repo.owner.login
            pullRequest.base.repo.name pullRequest.number]) ∨
    ∃ prCommits forkPointRef,
      (commitsFetch github pullRequest filePath s0).1 = Except.ok prCommits ∧
      getForkPointCommitSha prCommits = Except.ok forkPointRef ∧
      (getRecentFile bufferToString github pullRequest filePath s0).calls =
        [Call.getRepoContent pullRequest.head.repo.owner.login pullRequest.base.repo.name
            filePath pullRequest.head.sha,
          Call.getRepoContent pullRequest.base.repo.owner.login pullRequest.base.repo.name
            filePath pullRequest.base.ref,
          Call.getCommitsFromPr pullRequest.base.repo.owner.login
            pullRequest.base.repo.name pullRequest.number,
          Call.getRepoContent pullRequest.base.repo.owner.login pullRequest.base.repo.name
            filePath forkPointRef] := by
  have hcount2 : ¬ pullRequest.commits > 250 := Nat.not_lt.2 hcount
  rcases hc : (commitsFetch github pullRequest filePath s0).1 with reason | prCommits
  · left
    simp only [headFetch, baseFetch, commitsFetch] at hhead hbase hc
    refine ⟨fun _ _ hbad => (by cases hbad), ?_⟩
    simp [getRecentFile, hhead, hbase, Except.toOption, hdiff, hcount2, hc]
  · rcases hf : getForkPointCommitSha prCommits with e | forkPointRef
    · left
      refine ⟨fun cs f hcs hcf => ?_, ?_⟩
      · cases hcs
        rw [hf] at hcf
        cases hcf
      · simp only [headFetch, baseFetch, commitsFetch] at hhead hbase hc
        simp [getRecentFile, hhead, hbase, Except.toOption, hdiff, hcount2, hc, hf]
    · right
      refine ⟨prCommits, forkPointRef, rfl, hf, ?_⟩
      simp only [headFetch, baseFetch, commitsFetch] at hhead hbase hc
      simp only [getRecentFile, hhead, hbase, Except.toOption, hdiff, hcount2, hc, hf,
        decide_False, Bool.false_eq_true, if_false]
      split
      · rfl
      · split
        · rfl
        · split <;> rfl

/-! ## Reconciliation engine: limits, propagation and provider calls -/

/-- C11: `getRecentFile` fails with a `ManyCommitsError` if and only if head and base are
both fetched, their hashes differ and the commit count is greater than 250; the message
then quotes the count. -/
theorem getRecentFile_many_commits_iff {σ : Type}
    (bufferToString : String → Option String → Option String) (github : Github σ)
    (pullRequest : PullRequest) (filePath : String) (s0 : σ) :
    ((∃ message, (getRecentFile bufferToString github pullRequest filePath s0).result =
        Except.error (Error.ManyCommitsError message)) ↔
      ∃ headFile baseFile,
        (headFetch github pullRequest filePath s0).1 = Except.ok headFile ∧
        (baseFetch github pullRequest filePath s0).1 = Except.ok baseFile ∧
        headFile.sha ≠ baseFile.sha ∧ 250 < pullRequest.commits) ∧
    ((∃ message, (getRecentFile bufferToString github pullRequest filePath s0).result =
        Except.error (Error.ManyCommitsError message)) →
      (getRecentFile bufferToString github pullRequest filePath s0).result =
        Except.error (Error.ManyCommitsError
          ("pull-request has more than 250 commits: " ++ toString pullRequest.commits))) := by
  have hback : ∀ headFile baseFile,
      (headFetch github pullRequest filePath s0).1 = Except.ok headFile →
      (baseFetch github pullRequest filePath s0).1 = Except.ok baseFile →
      headFile.sha ≠ baseFile.sha → 250 < pullRequest.commits →
      (getRecentFile bufferToString github pullRequest filePath s0).result =
        Except.error (Error.ManyCommitsError
          ("pull-request has more than 250 commits: " ++ toString pullRequest.commits)) := by
    intro headFile baseFile hh hb hdiff hcount
    simp only [headFetch, baseFetch] at hh hb
    simp [getRecentFile, hh, hb, Except.toOption, hdiff, hcount]
  have hforth : (∃ message,
      (getRecentFile bufferToString github pullRequest filePath s0).result =
        Except.error (Error.ManyCommitsError message)) →
      ∃ headFile baseFile,
        (headFetch github pullRequest filePath s0).1 = Except.ok headFile ∧
        (baseFetch github pullRequest filePath s0).1 = Except.ok baseFile ∧
        headFile.sha ≠ baseFile.sha ∧ 250 < pullRequest.commits := by
    rintro ⟨message, hr⟩
    rcases hh : (headFetch github pullRequest filePath s0).1 with e1 | hf <;>
    rcases hb : (baseFetch github pullRequest filePath s0).1 with e2 | bf <;>
    simp only [headFetch, baseFetch] at hh hb <;>
    simp only [getRecentFile, hh, hb, Except.toOption] at hr
    · simp at hr
    · exact absurd (decodeContent_error _ _ _ hr) (by simp)
    · exact absurd (decodeContent_error _ _ _ hr) (by simp)
    · by_cases hsame : hf.sha = bf.sha
      · simp only [hsame, decide_True, if_true] at hr
        exact absurd (decodeContent_error _ _ _ hr) (by simp)
      · by_cases hcount : pullRequest.commits > 250
        · exact ⟨hf, bf, rfl, rfl, hsame, hcount⟩
        · simp only [hsame, hcount, decide_False, Bool.false_eq_true, if_false] at hr
          split at hr
          · simp at hr
          · split at hr
            · rename_i e hfork
              rcases getForkPointCommitSha_error _ e hfork with hty | ⟨m, hm⟩
              · subst hty
                simp at hr
              · subst hm
                simp at hr
            · split at hr
              · simp at hr
              · split at hr
                · exact absurd (decodeContent_error _ _ _ hr) (by simp)
                · split at hr
                  · exact absurd (decodeContent_error _ _ _ hr) (by simp)
                  · simp at hr
  refine ⟨⟨hforth, ?_⟩, ?_⟩
  · rintro ⟨headFile, baseFile, hh, hb, hdiff, hcount⟩
    exact ⟨_, hback headFile baseFile hh hb hdiff hcount⟩
  · intro hmany
    obtain ⟨headFile, baseFile, hh, hb, hdiff, hcount⟩ := hforth hmany
    exact hback headFile baseFile hh hb hdiff hcount

/-- Instances of C11 on the test suite's data: with hashes 123 and 456 a count of 251 is
refused, and a count of 250 is analysed (no `ManyCommitsError`). -/
theorem getRecentFile_many_commits_iff_witness :
    (∃ message, (getRecentFile plainText
      (stubGithub
        [Except.ok (testFile "123"), Except.ok (testFile "456"), Except.ok (testFile "123")]
        testCommits)
      { testPullRequest with commits := 251 } "test" 0).result =
        Except.error (Error.ManyCommitsError message)) ∧
    ¬ ∃ message, (getRecentFile plainText
      (stubGithub
        [Except.ok (testFile "123"), Except.ok (testFile "456"), Except.ok (testFile "123")]
        testCommits)
      { testPullRequest with commits := 250 } "test" 0).result =
        Except.error (Error.ManyCommitsError message) :=
  ⟨(getRecentFile_many_commits_iff plainText
      (stubGithub
        [Except.ok (testFile "123"), Except.ok (testFile "456"), Except.ok (testFile "123")]
        testCommits)
      { testPullRequest with commits := 251 } "test" 0).1.2
      ⟨testFile "123", testFile "456", rfl, rfl, by decide, by decide⟩,
    fun hmany => by
      obtain ⟨headFile, baseFile, _, _, _, hcount⟩ :=
        (getRecentFile_many_commits_iff plainText
          (stubGithub
            [Except.ok (testFile "123"), Except.ok (testFile "456"),
              Except.ok (testFile "123")]
            testCommits)
          { testPullRequest with commits := 250 } "test" 0).1.1 hmany
      exact absurd hcount (by decide)⟩

/-- C12: with head and base present under different hashes, a commit count of at most 250
and the fork point resolved to `forkPointRef`, a rejected request for the file at
`forkPointRef` makes `getRecentFile` fail with the `NotFoundError` whose message names
`forkPointRef` and which carries the file path; the provider's reason is dropped. -/
theorem getRecentFile_forkPoint_file_absent {σ : Type}
    (bufferToString : String → Option String → Option String) (github : Github σ)
    (pullRequest : PullRequest) (filePath : String) (s0 : σ)
    (headFile baseFile : File) (prCommits : List Commit) (forkPointRef reason : String)
    (hhead : (headFetch github pullRequest filePath s0).1 = Except.ok headFile)
    (hbase : (baseFetch github pullRequest filePath s0).1 = Except.ok baseFile)
    (hdiff : headFile.sha ≠ baseFile.sha)
    (hcount : pullRequest.commits ≤ 250)
    (hcommits : (commitsFetch github pullRequest filePath s0).1 = Except.ok prCommits)
    (hfork : getForkPointCommitSha prCommits = Except.ok forkPointRef)
    (hfile : (forkPointFetch github pullRequest filePath s0 forkPointRef).1 =
      Except.error reason) :
    (getRecentFile bufferToString github pullRequest filePath s0).result =
      Except.error (Error.NotFoundError
        ("could not fetch file from fork-point commit " ++ forkPointRef) filePath) := by
  simp only [headFetch, baseFetch, commitsFetch, forkPointFetch] at hhead hbase hcommits hfile
  have hcount2 : ¬ pullRequest.commits > 250 := Nat.not_lt.2 hcount
  simp [getRecentFile, hhead, hbase, Except.toOption, hdiff, hcount2, hcommits, hfork, hfile]

/-- Witness for C12: the third content call rejects with `404`. -/
theorem getRecentFile_forkPoint_file_absent_witness :
    (getRecentFile plainText
      (stubGithub
        [Except.ok (testFile "123"), Except.ok (testFile "456"), Except.error "404"]
        testCommits)
      testPullRequest "test" 0).result =
      Except.error (Error.NotFoundError
        ("could not fetch file from fork-point commit " ++ "fork-point-sha") "test") :=
  getRecentFile_forkPoint_file_absent plainText
    (stubGithub
      [Except.ok (testFile "123"), Except.ok (testFile "456"), Except.error "404"]
      testCommits)
    testPullRequest "test" 0 (testFile "123") (testFile "456") testCommits
    "fork-point-sha" "404" rfl rfl (by decide) (by decide) rfl rfl rfl

/-- C13: with head and base present under different hashes and a commit count of at most
250, an error `e` of `getForkPointCommitSha` on the provider's commit list is the error of
`getRecentFile`, and the only requests made are head, base and the commit list. -/
theorem getRecentFile_forkPoint_error {σ : Type}
    (bufferToString : String → Option String → Option String) (github : Github σ)
    (pullRequest : PullRequest) (filePath : String) (s0 : σ)
    (headFile baseFile : File) (prCommits : List Commit) (e : Error)
    (hhead : (headFetch github pullRequest filePath s0).1 = Except.ok headFile)
    (hbase : (baseFetch github pullRequest filePath s0).1 = Except.ok baseFile)
    (hdiff : headFile.sha ≠ baseFile.sha)
    (hcount : pullRequest.commits ≤ 250)
    (hcommits : (commitsFetch github pullRequest filePath s0).1 = Except.ok prCommits)
    (hfork : getForkPointCommitSha prCommits = Except.error e) :
    (getRecentFile bufferToString github pullRequest filePath s0).result = Except.error e ∧
    (getRecentFile bufferToString github pullRequest filePath s0).calls =
      [Call.getRepoContent pullRequest.head.repo.owner.login pullRequest.base.repo.name
          filePath pullRequest.head.sha,
        Call.getRepoContent pullRequest.base.repo.owner.login pullRequest.base.repo.name
          filePath pullRequest.base.ref,
        Call.getCommitsFromPr pullRequest.base.repo.owner.login
          pullRequest.base.repo.name pullRequest.number] := by
  simp only [headFetch, baseFetch, commitsFetch] at hhead hbase hcommits
  have hcount2 : ¬ pullRequest.commits > 250 := Nat.not_lt.2 hcount
  simp [getRecentFile, hhead, hbase, Except.toOption, hdiff, hcount2, hcommits, hfork]

/-- Witness for C13: the provider lists a merge commit, then a closed cycle. -/
theorem getRecentFile_forkPoint_error_witness :
    ((getRecentFile plainText
      (stubGithub [Except.ok (testFile "123"), Except.ok (testFile "456")] mergeReached)
      testPullRequest "test" 0).result =
      Except.error (Error.ConflictError "commit a555 has more than one parents") ∧
    (getRecentFile plainText
      (stubGithub [Except.ok (testFile "123"), Except.ok (testFile "456")] mergeReached)
      testPullRequest "test" 0).calls =
      [Call.getRepoContent "octocat-fork" "Hello-World" "test" "6dcb09b5b57875",
        Call.getRepoContent "octocat" "Hello-World" "test" "master",
        Call.getCommitsFromPr "octocat" "Hello-World" 1347]) ∧
    (getRecentFile plainText
      (stubGithub [Except.ok (testFile "123"), Except.ok (testFile "456")] closedCommits)
      testPullRequest "test" 0).result =
      Except.error (Error.ConflictError
        "not found fork-point commit sha  [ commit: a444 parent: a222 ] [ commit: a222 parent: a444 ]") :=
  ⟨getRecentFile_forkPoint_error plainText
      (stubGithub [Except.ok (testFile "123"), Except.ok (testFile "456")] mergeReached)
      testPullRequest "test" 0 (testFile "123") (testFile "456") mergeReached
      (Error.ConflictError "commit a555 has more than one parents")
      rfl rfl (by decide) (by decide) rfl rfl,
    (getRecentFile_forkPoint_error plainText
      (stubGithub [Except.ok (testFile "123"), Except.ok (testFile "456")] closedCommits)
      testPullRequest "test" 0 (testFile "123") (testFile "456") closedCommits
      (Error.ConflictError
        "not found fork-point commit sha  [ commit: a444 parent: a222 ] [ commit: a222 parent: a444 ]")
      rfl rfl (by decide) (by decide) rfl rfl).1⟩

/-- C14: a content returned by `getRecentFile` is what the runtime decodes from the content
and encoding of the head file or of the base file that the provider resolved; the
fork-point file is never returned. -/
theorem getRecentFile_result_head_or_base {σ : Type}
    (bufferToString : String → Option String → Option String) (github : Github σ)
    (pullRequest : PullRequest) (filePath : String) (s0 : σ) (content : String)
    (hr : (getRecentFile bufferToString github pullRequest filePath s0).result =
      Except.ok content) :
    (∃ headFile, (headFetch github pullRequest filePath s0).1 = Except.ok headFile ∧
      bufferToString headFile.content headFile.encoding = some content) ∨
    (∃ baseFile, (baseFetch github pullRequest filePath s0).1 = Except.ok baseFile ∧
      bufferToString baseFile.content baseFile.encoding = some content) := by
  rcases hh : (headFetch github pullRequest filePath s0).1 with e1 | hf <;>
  rcases hb : (baseFetch github pullRequest filePath s0).1 with e2 | bf <;>
  simp only [headFetch, baseFetch] at hh hb <;>
  simp only [getRecentFile, hh, hb, Except.toOption] at hr
  · simp at hr
  · exact Or.inr ⟨bf, rfl, decodeContent_ok _ _ _ hr⟩
  · exact Or.inl ⟨hf, rfl, decodeContent_ok _ _ _ hr⟩
  · split at hr
    · exact Or.inr ⟨bf, rfl, decodeContent_ok _ _ _ hr⟩
    · split at hr
      · simp at hr
      · split at hr
        · simp at hr
        · split at hr
          · simp at hr
          · split at hr
            · simp at hr
            · split at hr
              · exact Or.inr ⟨bf, rfl, decodeContent_ok _ _ _ hr⟩
              · split at hr
                · exact Or.inl ⟨hf, rfl, decodeContent_ok _ _ _ hr⟩
                · simp at hr

/-- Witness for C14: hashes (123, 456, 123) with three distinct contents; the result is
the base content, not the fork-point content. -/
theorem getRecentFile_result_head_or_base_witness :
    (∃ headFile, (headFetch
        (stubGithub [Except.ok ⟨"123", "head text", none⟩,
          Except.ok ⟨"456", "base text", none⟩, Except.ok ⟨"123", "fork text", none⟩]
          testCommits)
        testPullRequest "test" 0).1 = Except.ok headFile ∧
      plainText headFile.content headFile.encoding = some "base text") ∨
    (∃ baseFile, (baseFetch
        (stubGithub [Except.ok ⟨"123", "head text", none⟩,
          Except.ok ⟨"456", "base text", none⟩, Except.ok ⟨"123", "fork text", none⟩]
          testCommits)
        testPullRequest "test" 0).1 = Except.ok baseFile ∧
      plainText baseFile.content baseFile.encoding = some "base text") :=
  getRecentFile_result_head_or_base plainText
    (stubGithub [Except.ok ⟨"123", "head text", none⟩,
      Except.ok ⟨"456", "base text", none⟩, Except.ok ⟨"123", "fork text", none⟩]
      testCommits)
    testPullRequest "test" 0 "base text" rfl

/-- C15: when the head or the base file is absent, or their hashes are equal, or the
hashes differ and the commit count exceeds 250, `getRecentFile` makes exactly two
`getRepoContent` calls and no `getCommitsFromPr` call. Conversely, if the commit list was
requested, then both files were present with different hashes and a commit count of at
most 250, and at most three `getRepoContent` calls were made. -/
theorem getRecentFile_call_counts {σ : Type}
    (bufferToString : String → Option String → Option String) (github : Github σ)
    (pullRequest : PullRequest) (filePath : String) (s0 : σ) :
    (((∃ e, (headFetch github pullRequest filePath s0).1 = Except.error e) ∨
      (∃ e, (baseFetch github pullRequest filePath s0).1 = Except.error e) ∨
      ∃ headFile baseFile,
        (headFetch github pullRequest filePath s0).1 = Except.ok headFile ∧
        (baseFetch github pullRequest filePath s0).1 = Except.ok baseFile ∧
        (headFile.sha = baseFile.sha ∨
          (headFile.sha ≠ baseFile.sha ∧ 250 < pullRequest.commits))) →
      (getRecentFile bufferToString github pullRequest filePath s0).calls.countP
        Call.isGetRepoContent = 2 ∧
      (getRecentFile bufferToString github pullRequest filePath s0).calls.countP
        Call.isGetCommitsFromPr = 0) ∧
    ((getRecentFile bufferToString github pullRequest filePath s0).calls.countP
        Call.isGetCommitsFromPr ≠ 0 →
      (∃ headFile baseFile,
        (headFetch github pullRequest filePath s0).1 = Except.ok headFile ∧
        (baseFetch github pullRequest filePath s0).1 = Except.ok baseFile ∧
        headFile.sha ≠ baseFile.sha ∧ pullRequest.commits ≤ 250) ∧
      (getRecentFile bufferToString github pullRequest filePath s0).calls.countP
        Call.isGetRepoContent ≤ 3) := by
  constructor
  · intro hearly
    rw [getRecentFile_calls_early bufferToString github pullRequest filePath s0 hearly]
    exact ⟨rfl, rfl⟩
  · intro hlisted
    rcases early_or_deep github pullRequest filePath s0 with hearly | hdeep
    · rw [getRecentFile_calls_early bufferToString github pullRequest filePath s0 hearly]
        at hlisted
      exact absurd rfl hlisted
    · refine ⟨hdeep, ?_⟩
      obtain ⟨headFile, baseFile, hh, hb, hdiff, hcount⟩ := hdeep
      rcases getRecentFile_calls_deep bufferToString github pullRequest filePath s0
        headFile baseFile hh hb hdiff hcount with ⟨_, hcalls⟩ | ⟨_, _, _, _, hcalls⟩
      · rw [hcalls]
        exact Nat.le_succ 2
      · rw [hcalls]
        exact Nat.le_refl 3

/-- Instances of C15 on the test suite's data: equal hashes give two content calls and no
commit-list call; a count of 251 with hashes 123 and 456 likewise. -/
theorem getRecentFile_call_counts_witness :
    ((getRecentFile plainText
      (stubGithub [Except.ok (testFile "123"), Except.ok (testFile "123")] testCommits)
      testPullRequest "test" 0).calls.countP Call.isGetRepoContent = 2 ∧
    (getRecentFile plainText
      (stubGithub [Except.ok (testFile "123"), Except.ok (testFile "123")] testCommits)
      testPullRequest "test" 0).calls.countP Call.isGetCommitsFromPr = 0) ∧
    ((getRecentFile plainText
      (stubGithub [Except.ok (testFile "123"), Except.ok (testFile "456")] testCommits)
      { testPullRequest with commits := 251 } "test" 0).calls.countP
        Call.isGetRepoContent = 2 ∧
    (getRecentFile plainText
      (stubGithub [Except.ok (testFile "123"), Except.ok (testFile "456")] testCommits)
      { testPullRequest with commits := 251 } "test" 0).calls.countP
        Call.isGetCommitsFromPr = 0) :=
  ⟨(getRecentFile_call_counts plainText
      (stubGithub [Except.ok (testFile "123"), Except.ok (testFile "123")] testCommits)
      testPullRequest "test" 0).1
      (Or.inr (Or.inr ⟨testFile "123", testFile "123", rfl, rfl, Or.inl rfl⟩)),
    (getRecentFile_call_counts plainText
      (stubGithub [Except.ok (testFile "123"), Except.ok (testFile "456")] testCommits)
      { testPullRequest with commits := 251 } "test" 0).1
      (Or.inr (Or.inr ⟨testFile "123", testFile "456", rfl, rfl,
        Or.inr ⟨by decide, by decide⟩⟩))⟩

/-- C16: the first two requests of `getRecentFile` are the head request (head owner login,
base repository name, file path, head commit sha) and the base request (base owner login,
base repository name, file path, base branch ref); any further request is the commit list
(base owner login, base repository name, number), followed at most by the file at the hash
returned by `getForkPointCommitSha` (base owner login, base repository name, file path,
that hash); when the deeper check runs and the fork point is resolved, all four are made.
The head repository's name has no influence on the invocation. -/
theorem getRecentFile_call_arguments {σ : Type}
    (bufferToString : String → Option String → Option String) (github : Github σ)
    (pullRequest : PullRequest) (filePath : String) (s0 : σ) :
    (∃ rest, (getRecentFile bufferToString github pullRequest filePath s0).calls =
        Call.getRepoContent pullRequest.head.repo.owner.login pullRequest.base.repo.name
          filePath pullRequest.head.sha ::
        Call.getRepoContent pullRequest.base.repo.owner.login pullRequest.base.repo.name
          filePath pullRequest.base.ref :: rest ∧
      (rest = [] ∨
        rest = [Call.getCommitsFromPr pullRequest.base.repo.owner.login
          pullRequest.base.repo.name pullRequest.number] ∨
        ∃ prCommits forkPointRef,
          (commitsFetch github pullRequest filePath s0).1 = Except.ok prCommits ∧
          getForkPointCommitSha prCommits = Except.ok forkPointRef ∧
          rest = [Call.getCommitsFromPr pullRequest.base.repo.owner.login
              pullRequest.base.repo.name pullRequest.number,
            Call.getRepoContent pullRequest.base.repo.owner.login
              pullRequest.base.repo.name filePath forkPointRef])) ∧
    (∀ headFile baseFile prCommits forkPointRef,
      (headFetch github pullRequest filePath s0).1 = Except.ok headFile →
      (baseFetch github pullRequest filePath s0).1 = Except.ok baseFile →
      headFile.sha ≠ baseFile.sha → pullRequest.commits ≤ 250 →
      (commitsFetch github pullRequest filePath s0).1 = Except.ok prCommits →
      getForkPointCommitSha prCommits = Except.ok forkPointRef →
      (getRecentFile bufferToString github pullRequest filePath s0).calls =
        [Call.getRepoContent pullRequest.head.repo.owner.login pullRequest.base.repo.name
            filePath pullRequest.head.sha,
          Call.getRepoContent pullRequest.base.repo.owner.login pullRequest.base.repo.name
            filePath pullRequest.base.ref,
          Call.getCommitsFromPr pullRequest.base.repo.owner.login
            pullRequest.base.repo.name pullRequest.number,
          Call.getRepoContent pullRequest.base.repo.owner.login pullRequest.base.repo.name
            filePath forkPointRef]) ∧
    ∀ name : String,
      getRecentFile bufferToString github
        { pullRequest with
          head := { pullRequest.head with repo := { pullRequest.head.repo with name := name } } }
        filePath s0 =
      getRecentFile bufferToString github pullRequest filePath s0 := by
  refine ⟨?_, ?_, fun _ => rfl⟩
  · rcases early_or_deep github pullRequest filePath s0 with hearly | hdeep
    · exact ⟨[], getRecentFile_calls_early bufferToString github pullRequest filePath s0
        hearly, Or.inl rfl⟩
    · obtain ⟨headFile, baseFile, hh, hb, hdiff, hcount⟩ := hdeep
      rcases getRecentFile_calls_deep bufferToString github pullRequest filePath s0
        headFile baseFile hh hb hdiff hcount with ⟨_, hcalls⟩ | ⟨cs, f, hcs, hf, hcalls⟩
      · exact ⟨_, hcalls, Or.inr (Or.inl rfl)⟩
      · exact ⟨_, hcalls, Or.inr (Or.inr ⟨cs, f, hcs, hf, rfl⟩)⟩
  · intro headFile baseFile prCommits forkPointRef hh hb hdiff hcount hcs hf
    rcases getRecentFile_calls_deep bufferToString github pullRequest filePath s0
      headFile baseFile hh hb hdiff hcount with ⟨hno, _⟩ | ⟨cs, f, hcs2, hf2, hcalls⟩
    · exact absurd hf (hno prCommits forkPointRef hcs)
    · rw [hcs] at hcs2
      cases hcs2
      rw [hf] at hf2
      cases hf2
      exact hcalls

/-- Instance of C16 on the test "should calls all function with valid arguments":
hashes (123, 456, 456) and the four argument lists the test expects. -/
theorem getRecentFile_call_arguments_witness :
    (getRecentFile plainText
      (stubGithub
        [Except.ok (testFile "123"), Except.ok (testFile "456"), Except.ok (testFile "456")]
        testCommits)
      testPullRequest "test" 0).calls =
      [Call.getRepoContent "octocat-fork" "Hello-World" "test" "6dcb09b5b57875",
        Call.getRepoContent "octocat" "Hello-World" "test" "master",
        Call.getCommitsFromPr "octocat" "Hello-World" 1347,
        Call.getRepoContent "octocat" "Hello-World" "test" "fork-point-sha"] :=
  (getRecentFile_call_arguments plainText
    (stubGithub
      [Except.ok (testFile "123"), Except.ok (testFile "456"), Except.ok (testFile "456")]
      testCommits)
    testPullRequest "test" 0).2.1 (testFile "123") (testFile "456") testCommits
    "fork-point-sha" rfl rfl (by decide) (by decide) rfl rfl

/-- C19: once `getRecentFile` compares with the fork-point file (head and base present
under different hashes), the head hash and the base hash cannot both equal the fork-point
hash, and the final `ConflictError` is the result if and only if the three hashes are
pairwise different. -/
theorem getRecentFile_conflict_iff_distinct {σ : Type}
    (bufferToString : String → Option String → Option String) (github : Github σ)
    (pullRequest : PullRequest) (filePath : String) (s0 : σ)
    (headFile baseFile forkPointFile : File) (prCommits : List Commit) (forkPointRef : String)
    (hhead : (headFetch github pullRequest filePath s0).1 = Except.ok headFile)
    (hbase : (baseFetch github pullRequest filePath s0).1 = Except.ok baseFile)
    (hdiff : headFile.sha ≠ baseFile.sha)
    (hcount : pullRequest.commits ≤ 250)
    (hcommits : (commitsFetch github pullRequest filePath s0).1 = Except.ok prCommits)
    (hfork : getForkPointCommitSha prCommits = Except.ok forkPointRef)
    (hfile : (forkPointFetch github pullRequest filePath s0 forkPointRef).1 =
      Except.ok forkPointFile) :
    ¬ (headFile.sha = forkPointFile.sha ∧ baseFile.sha = forkPointFile.sha) ∧
    ((getRecentFile bufferToString github pullRequest filePath s0).result =
        Except.error (Error.ConflictError
          ("file \"" ++ filePath ++ "\" has changes in head and base branches")) ↔
      headFile.sha ≠ baseFile.sha ∧ headFile.sha ≠ forkPointFile.sha ∧
        baseFile.sha ≠ forkPointFile.sha) := by
  have hdec := getRecentFile_decision bufferToString github pullRequest filePath s0
    headFile baseFile forkPointFile prCommits forkPointRef
    hhead hbase hdiff hcount hcommits hfork hfile
  refine ⟨fun hboth => hdiff (hboth.1.trans hboth.2.symm), ?_⟩
  rw [hdec]
  constructor
  · intro hres
    by_cases hH : headFile.sha = forkPointFile.sha
    · have hB : baseFile.sha ≠ forkPointFile.sha := fun hB => hdiff (hH.trans hB.symm)
      rw [if_pos ⟨hB, hH⟩] at hres
      exact absurd (decodeContent_error _ _ _ hres) (by simp)
    · by_cases hB : baseFile.sha = forkPointFile.sha
      · rw [if_neg (fun h => hH h.2), if_pos ⟨hH, hB⟩] at hres
        exact absurd (decodeContent_error _ _ _ hres) (by simp)
      · exact ⟨hdiff, hH, hB⟩
  · rintro ⟨_, hH, hB⟩
    rw [if_neg (fun h => hH h.2), if_neg (fun h => hB h.2)]

/-- Witness for C19: hashes (123, 456, 789) with path `test`. -/
theorem getRecentFile_conflict_iff_distinct_witness :
    ¬ ((testFile "123").sha = (testFile "789").sha ∧
      (testFile "456").sha = (testFile "789").sha) ∧
    ((getRecentFile plainText
      (stubGithub
        [Except.ok (testFile "123"), Except.ok (testFile "456"), Except.ok (testFile "789")]
        testCommits)
      testPullRequest "test" 0).result =
        Except.error (Error.ConflictError
          ("file \"" ++ "test" ++ "\" has changes in head and base branches")) ↔
      (testFile "123").sha ≠ (testFile "456").sha ∧
        (testFile "123").sha ≠ (testFile "789").sha ∧
        (testFile "456").sha ≠ (testFile "789").sha) :=
  getRecentFile_conflict_iff_distinct plainText
    (stubGithub
      [Except.ok (testFile "123"), Except.ok (testFile "456"), Except.ok (testFile "789")]
      testCommits)
    testPullRequest "test" 0 (testFile "123") (testFile "456") (testFile "789")
    testCommits "fork-point-sha" rfl rfl (by decide) (by decide) rfl rfl rfl

/-! ## Fork-point resolver: order, message and totality -/

/-- C17: `getForkPointCommitSha` returns `h` if and only if some record `i` has exactly one
parent, that parent's hash is `h`, `h` is not the hash of a record of the list, and every
record before `i` has exactly one parent whose hash is the hash of a record of the list.
(Holds for every list; records need not even have a parent.) -/
theorem getForkPointCommitSha_ok_iff (commits : List Commit) (h : String) :
    getForkPointCommitSha commits = Except.ok h ↔
      ∃ i, ∃ hi : i < commits.length,
        (∃ p, commits[i].parents = [p] ∧ p.sha = h) ∧
        h ∉ commits.map (fun commit => commit.sha) ∧
        ∀ j (hj : j < commits.length), j < i →
          ∃ q, commits[j].parents = [q] ∧ q.sha ∈ commits.map (fun commit => commit.sha) := by
  rw [getForkPointCommitSha_ok_iff_loop, forkPointLoop_ok_iff]

/-- C18: on a closed list of single-parent records the error message is
`not found fork-point commit sha ` followed by the groups ` [ commit: <hash> parent:
<parent hash> ]` of all records, in input order. -/
theorem getForkPointCommitSha_not_found_message (commits : List Commit)
    (hone : ∀ c ∈ commits, c.parents.length = 1)
    (hclosed : ∀ c ∈ commits, ∀ p ∈ c.parents,
      p.sha ∈ commits.map (fun commit => commit.sha)) :
    getForkPointCommitSha commits = Except.error
      (Error.ConflictError ("not found fork-point commit sha " ++ specDump commits)) := by
  have hloop : forkPointLoop (commits.map (fun commit => commit.sha)) commits = none := by
    apply forkPointLoop_closed
    intro c hc
    obtain ⟨p, hp⟩ := parents_singleton (hone c hc)
    exact ⟨p, hp, hclosed c hc p (by simp [hp])⟩
  have hdump : formatCommits commits = Except.ok (specDump commits) := by
    have := formatCommits_fold_spec commits "" hone
    simpa [formatCommits] using this
  unfold getForkPointCommitSha
  simp only
  rw [hloop]
  simp only
  rw [hdump]

/-- Witness for C18: the two-record cycle of the test suite and its exact message. -/
theorem getForkPointCommitSha_not_found_message_witness :
    specDump closedCommits = " [ commit: a444 parent: a222 ] [ commit: a222 parent: a444 ]" ∧
    getForkPointCommitSha closedCommits = Except.error
      (Error.ConflictError ("not found fork-point commit sha " ++ specDump closedCommits)) :=
  ⟨by decide,
    getForkPointCommitSha_not_found_message closedCommits (by decide) (by decide)⟩

/-- C20: on a list (possibly empty) whose records all have a parent, `getForkPointCommitSha`
either returns a hash or fails with a `ConflictError`; the loop never reads the first parent
of a record without parents, and when the loop runs to its end every record has exactly one
parent and the dump is produced. On the empty list the result is the not-found error with
an empty dump. -/
theorem getForkPointCommitSha_total (commits : List Commit)
    (hne : ∀ c ∈ commits, c.parents ≠ []) :
    ((∃ h, getForkPointCommitSha commits = Except.ok h) ∨
      ∃ message, getForkPointCommitSha commits = Except.error (Error.ConflictError message)) ∧
    getForkPointCommitSha commits ≠ Except.error Error.TypeError ∧
    forkPointLoop (commits.map (fun commit => commit.sha)) commits ≠
      some (Except.error Error.TypeError) ∧
    (forkPointLoop (commits.map (fun commit => commit.sha)) commits = none →
      (∀ c ∈ commits, c.parents.length = 1) ∧
      ∃ dump, formatCommits commits = Except.ok dump) ∧
    getForkPointCommitSha [] =
      Except.error (Error.ConflictError "not found fork-point commit sha ") := by
  have hnoType := forkPointLoop_no_typeError (commits.map (fun commit => commit.sha)) commits hne
  obtain ⟨dump, hdump⟩ := formatCommits_ok commits hne
  have hmain : (∃ h, getForkPointCommitSha commits = Except.ok h) ∨
      ∃ message,
        getForkPointCommitSha commits = Except.error (Error.ConflictError message) := by
    match hloop : forkPointLoop (commits.map (fun commit => commit.sha)) commits with
    | none =>
      right
      refine ⟨"not found fork-point commit sha " ++ dump, ?_⟩
      unfold getForkPointCommitSha
      simp only
      rw [hloop]
      simp only
      rw [hdump]
    | some (Except.ok h) =>
      left
      exact ⟨h, (getForkPointCommitSha_ok_iff_loop commits h).2 hloop⟩
    | some (Except.error e) =>
      right
      rcases forkPointLoop_error _ commits e hloop with hty | ⟨c, _, hce⟩
      · rw [hty] at hloop
        exact absurd hloop hnoType
      · refine ⟨"commit " ++ c.sha ++ " has more than one parents", ?_⟩
        unfold getForkPointCommitSha
        simp only
        rw [hloop, hce]
  refine ⟨hmain, ?_, hnoType, ?_, rfl⟩
  · intro hbad
    rcases hmain with ⟨h, hh⟩ | ⟨message, hm⟩
    · rw [hh] at hbad
      cases hbad
    · rw [hm] at hbad
      cases hbad
  · intro hloop
    exact ⟨forkPointLoop_none_single _ commits hloop, dump, hdump⟩

/-- Witness for C20 on the test suite's four-record list. -/
theorem getForkPointCommitSha_total_witness :
    ((∃ h, getForkPointCommitSha testCommits = Except.ok h) ∨
      ∃ message,
        getForkPointCommitSha testCommits = Except.error (Error.ConflictError message)) ∧
    getForkPointCommitSha testCommits ≠ Except.error Error.TypeError ∧
    forkPointLoop (testCommits.map (fun commit => commit.sha)) testCommits ≠
      some (Except.error Error.TypeError) ∧
    (forkPointLoop (testCommits.map (fun commit => commit.sha)) testCommits = none →
      (∀ c ∈ testCommits, c.parents.length = 1) ∧
      ∃ dump, formatCommits testCommits = Except.ok dump) ∧
    getForkPointCommitSha [] =
      Except.error (Error.ConflictError "not found fork-point commit sha ") :=
  getForkPointCommitSha_total testCommits (by decide)

end RecentFile
